import Mathlib

/-!
# Completion adapter of the health-companion backend (`后端/index.js`)

A shallow embedding of `extractText` and of the two AI route handlers
(`POST /ai/diagnosis`, `POST /ai/ask`), followed by the properties proved
about them.

Modelling conventions

* A JavaScript string is its sequence of UTF-16 code units (`JsString`).
* A JavaScript value is a `JsVal`: the values `JSON.parse` can produce, plus
  `undefined`.
* An abrupt completion (a `throw`) is the `error` case of `Except JsError`.
* The network is a function `fetch : Request → FetchOutcome` supplied by the
  environment; a handler run records the requests it issued, the lines it
  logged and the response it sent.
-/

namespace Backend

/-! ## Strings -/

/-- A JavaScript string: a finite sequence of UTF-16 code units. -/
abbrev JsString := List Nat

/-- UTF-16 encoding of one Unicode scalar value. -/
def utf16Char (c : Char) : List Nat :=
  if c.toNat < 65536 then [c.toNat]
  else [55296 + (c.toNat - 65536) / 1024, 56320 + (c.toNat - 65536) % 1024]

/-- The JavaScript string denoted by a string literal of the source. -/
def utf16 (s : String) : JsString := s.toList.flatMap utf16Char

/-- ECMAScript `WhiteSpace` and `LineTerminator` code points: the characters
`String.prototype.trim` strips and `StringToNumber` skips. -/
def isTrimSpace (u : Nat) : Bool :=
  u == 9 || u == 10 || u == 11 || u == 12 || u == 13 || u == 32 || u == 160 ||
  u == 5760 || (8192 ≤ u && u ≤ 8202) || u == 8232 || u == 8233 || u == 8239 ||
  u == 8287 || u == 12288 || u == 65279

/-- The method `String.prototype.trimStart`. -/
def trimStart (s : JsString) : JsString := s.dropWhile isTrimSpace

/-- The method `String.prototype.trimEnd`. -/
def trimEnd (s : JsString) : JsString := (s.reverse.dropWhile isTrimSpace).reverse

/-- The method `String.prototype.trim`. -/
def trim (s : JsString) : JsString := trimEnd (trimStart s)

/-- The call `s.replace(/\\n/g, '\n')`: the regular expression matches a backslash
(code unit 92) followed by `n` (110); every match, found left to right without
overlap, is replaced by a line feed (10). -/
def replaceEscapedNewlines : JsString → JsString
  | [] => []
  | [c] => [c]
  | c :: d :: rest =>
    if c = 92 ∧ d = 110 then 10 :: replaceEscapedNewlines rest
    else c :: replaceEscapedNewlines (d :: rest)

/-! ## Values -/

/-- A thrown JavaScript value, as far as the program can tell them apart. -/
inductive JsError where
  | SyntaxError
  | TypeError
  | other (message : JsString)
deriving DecidableEq, Repr

/-- Decidable equality of completions, normal or abrupt. -/
instance instDecidableEqCompletion {ε α : Type} [DecidableEq ε] [DecidableEq α] :
    DecidableEq (Except ε α)
  | .ok a, .ok b =>
    if h : a = b then isTrue (by rw [h]) else isFalse (by intro e; cases e; exact h rfl)
  | .error a, .error b =>
    if h : a = b then isTrue (by rw [h]) else isFalse (by intro e; cases e; exact h rfl)
  | .ok _, .error _ => isFalse (by intro e; cases e)
  | .error _, .ok _ => isFalse (by intro e; cases e)

/-- A number, kept as the decimal literal that denotes it:
`(-1)^neg * mant * 10^exp`. The Number value is the double nearest to it. -/
structure JsNum where
  neg : Bool
  mant : Nat
  exp : Int
deriving DecidableEq, Repr

/-- The Number value of a natural number literal of the source. -/
def JsNum.ofNat (n : Nat) : JsNum := ⟨false, n, 0⟩

/-- The Number value is `+0` or `-0`: the literal denotes at most `2^-1075`,
half the least positive double (round to nearest, ties to even). -/
def JsNum.roundsToZero (x : JsNum) : Bool :=
  match x.exp with
  | .ofNat _ => x.mant == 0
  | .negSucc k => decide (x.mant * 2 ^ 1075 ≤ 10 ^ (k + 1))

/-- The Number value is greater than zero. -/
def JsNum.isPos (x : JsNum) : Bool := !x.neg && !x.roundsToZero

/-- The values of the program: what `JSON.parse` returns, and `undefined`.
An object keeps its members in the order of the text. -/
inductive JsVal where
  | undefined
  | null
  | bool (b : Bool)
  | num (x : JsNum)
  | str (s : JsString)
  | arr (xs : List JsVal)
  | obj (kvs : List (JsString × JsVal))
deriving Repr

mutual
/-- Decidable equality of values. -/
def JsVal.decEq : (a b : JsVal) → Decidable (a = b)
  | .undefined, .undefined => isTrue rfl
  | .null, .null => isTrue rfl
  | .bool a, .bool b =>
    if h : a = b then isTrue (by rw [h]) else isFalse (by intro e; cases e; exact h rfl)
  | .num a, .num b =>
    if h : a = b then isTrue (by rw [h]) else isFalse (by intro e; cases e; exact h rfl)
  | .str a, .str b =>
    if h : a = b then isTrue (by rw [h]) else isFalse (by intro e; cases e; exact h rfl)
  | .arr a, .arr b =>
    match JsVal.decEqList a b with
    | isTrue h => isTrue (by rw [h])
    | isFalse h => isFalse (by intro e; cases e; exact h rfl)
  | .obj a, .obj b =>
    match JsVal.decEqFields a b with
    | isTrue h => isTrue (by rw [h])
    | isFalse h => isFalse (by intro e; cases e; exact h rfl)
  | .undefined, .null | .undefined, .bool _ | .undefined, .num _ | .undefined, .str _
  | .undefined, .arr _ | .undefined, .obj _ => isFalse (by intro e; cases e)
  | .null, .undefined | .null, .bool _ | .null, .num _ | .null, .str _
  | .null, .arr _ | .null, .obj _ => isFalse (by intro e; cases e)
  | .bool _, .undefined | .bool _, .null | .bool _, .num _ | .bool _, .str _
  | .bool _, .arr _ | .bool _, .obj _ => isFalse (by intro e; cases e)
  | .num _, .undefined | .num _, .null | .num _, .bool _ | .num _, .str _
  | .num _, .arr _ | .num _, .obj _ => isFalse (by intro e; cases e)
  | .str _, .undefined | .str _, .null | .str _, .bool _ | .str _, .num _
  | .str _, .arr _ | .str _, .obj _ => isFalse (by intro e; cases e)
  | .arr _, .undefined | .arr _, .null | .arr _, .bool _ | .arr _, .num _
  | .arr _, .str _ | .arr _, .obj _ => isFalse (by intro e; cases e)
  | .obj _, .undefined | .obj _, .null | .obj _, .bool _ | .obj _, .num _
  | .obj _, .str _ | .obj _, .arr _ => isFalse (by intro e; cases e)
/-- Decidable equality of element lists. -/
def JsVal.decEqList : (a b : List JsVal) → Decidable (a = b)
  | [], [] => isTrue rfl
  | [], _ :: _ => isFalse (by intro e; cases e)
  | _ :: _, [] => isFalse (by intro e; cases e)
  | x :: xs, y :: ys =>
    match JsVal.decEq x y, JsVal.decEqList xs ys with
    | isTrue h, isTrue h2 => isTrue (by rw [h, h2])
    | isFalse h, _ => isFalse (by intro e; cases e; exact h rfl)
    | _, isFalse h => isFalse (by intro e; cases e; exact h rfl)
/-- Decidable equality of member lists. -/
def JsVal.decEqFields : (a b : List (JsString × JsVal)) → Decidable (a = b)
  | [], [] => isTrue rfl
  | [], _ :: _ => isFalse (by intro e; cases e)
  | _ :: _, [] => isFalse (by intro e; cases e)
  | (k, x) :: xs, (l, y) :: ys =>
    if hk : k = l then
      match JsVal.decEq x y, JsVal.decEqFields xs ys with
      | isTrue h, isTrue h2 => isTrue (by rw [hk, h, h2])
      | isFalse h, _ => isFalse (by intro e; cases e; exact h rfl)
      | _, isFalse h => isFalse (by intro e; cases e; exact h rfl)
    else isFalse (by intro e; cases e; exact hk rfl)
end

instance : DecidableEq JsVal := JsVal.decEq

/-- The operation `ToBoolean`: the truthiness tested by `!x` and `&&`. -/
def truthy : JsVal → Bool
  | .undefined => false
  | .null => false
  | .bool b => b
  | .num x => !x.roundsToZero
  | .str s => !s.isEmpty
  | .arr _ => true
  | .obj _ => true

/-- The own property `key` of an object built by `JSON.parse`: when the text
repeats a member name, the last member wins. -/
def ownProperty : List (JsString × JsVal) → JsString → Option JsVal
  | [], _ => none
  | (k, v) :: rest, key =>
    match ownProperty rest key with
    | some w => some w
    | none => if k = key then some v else none

/-- The value of a decimal digit string. -/
def digitsValue (ds : List Nat) : Nat := ds.foldl (fun a d => 10 * a + (d - 48)) 0

/-- Code unit of a decimal digit. -/
def isDigit (u : Nat) : Bool := 48 ≤ u && u ≤ 57

/-- A canonical numeric property key (`"0"`, `"1"`, `"12"`; not `"01"`), as an index. -/
def arrayIndex (key : JsString) : Option Nat :=
  match key with
  | [] => none
  | d :: ds =>
    if key.all isDigit && (d != 48 || ds.isEmpty) then some (digitsValue key) else none

/-- Property read `v.key` / `v[key]` for the property names the program reads
(`symptoms`, `question`, `choices`, `length`, `0`, `text`): reading from
`undefined` or `null` throws a `TypeError`; strings and arrays have `length`
and indexed elements; objects have their own members; every other read of those
names finds nothing on the built-in prototypes and gives `undefined`. -/
def getProp (v : JsVal) (key : JsString) : Except JsError JsVal :=
  match v with
  | .undefined => .error .TypeError
  | .null => .error .TypeError
  | .bool _ => .ok .undefined
  | .num _ => .ok .undefined
  | .str s =>
    if key = utf16 "length" then .ok (.num (.ofNat s.length))
    else match arrayIndex key with
      | some i => .ok ((s.get? i).elim .undefined (fun u => .str [u]))
      | none => .ok .undefined
  | .arr xs =>
    if key = utf16 "length" then .ok (.num (.ofNat xs.length))
    else match arrayIndex key with
      | some i => .ok ((xs.get? i).getD .undefined)
      | none => .ok .undefined
  | .obj kvs => .ok ((ownProperty kvs key).getD .undefined)

/-! ## Conversions used by the comparison `> 0` and by template literals -/

/-- Whether `key` is an own member name of an object built by `JSON.parse`. -/
def hasOwn (kvs : List (JsString × JsVal)) (key : JsString) : Bool :=
  (ownProperty kvs key).isSome

mutual
/-- The operation `ToString`, given the platform's `Number::toString`. An array is joined
with commas (`Array.prototype.join`), an object gives `[object Object]`
unless it has an own member named `toString`: that member is a JSON value, so
not callable, and `OrdinaryToPrimitive` then throws a `TypeError`. -/
def toStringJs (numberToString : JsNum → JsString) : JsVal → Except JsError JsString
  | .undefined => .ok (utf16 "undefined")
  | .null => .ok (utf16 "null")
  | .bool b => .ok (if b then utf16 "true" else utf16 "false")
  | .num x => .ok (numberToString x)
  | .str s => .ok s
  | .arr xs => joinJs numberToString xs
  | .obj kvs =>
    if hasOwn kvs (utf16 "toString") then .error .TypeError
    else .ok (utf16 "[object Object]")
/-- The method `Array.prototype.join` with the default separator: `undefined` and `null`
elements contribute the empty string. -/
def joinJs (numberToString : JsNum → JsString) : List JsVal → Except JsError JsString
  | [] => .ok []
  | x :: xs =>
    match elementToString numberToString x, joinRest numberToString xs with
    | .ok a, .ok b => .ok (a ++ b)
    | .error e, _ => .error e
    | _, .error e => .error e
/-- The elements after the first, each preceded by a comma (44). -/
def joinRest (numberToString : JsNum → JsString) : List JsVal → Except JsError JsString
  | [] => .ok []
  | x :: xs =>
    match elementToString numberToString x, joinRest numberToString xs with
    | .ok a, .ok b => .ok (44 :: (a ++ b))
    | .error e, _ => .error e
    | _, .error e => .error e
/-- The string an array element contributes to `join`. -/
def elementToString (numberToString : JsNum → JsString) : JsVal → Except JsError JsString
  | .undefined => .ok []
  | .null => .ok []
  | .bool b => .ok (if b then utf16 "true" else utf16 "false")
  | .num x => .ok (numberToString x)
  | .str s => .ok s
  | .arr xs => joinJs numberToString xs
  | .obj kvs =>
    if hasOwn kvs (utf16 "toString") then .error .TypeError
    else .ok (utf16 "[object Object]")
end

/-- An `ExponentPart` that ends the string, or nothing: the exponent it denotes. -/
def exponentPart (s : JsString) : Option Int :=
  match s with
  | [] => some 0
  | e :: rest =>
    if e = 101 ∨ e = 69 then
      match rest with
      | [] => none
      | sign :: ds =>
        if sign = 43 then
          (if !ds.isEmpty && ds.all isDigit then some (digitsValue ds : Int) else none)
        else if sign = 45 then
          (if !ds.isEmpty && ds.all isDigit then some (-(digitsValue ds : Int)) else none)
        else
          (if rest.all isDigit then some (digitsValue rest : Int) else none)
    else none

/-- Whether `s` is a `StrUnsignedDecimalLiteral` whose Number value is greater
than zero. -/
def unsignedDecimalPos (s : JsString) : Bool :=
  if s = utf16 "Infinity" then true
  else
    let intPart := s.takeWhile isDigit
    let afterInt := s.dropWhile isDigit
    let fracPart := match afterInt with
      | 46 :: t => t.takeWhile isDigit
      | _ => []
    let afterFrac := match afterInt with
      | 46 :: t => t.dropWhile isDigit
      | _ => afterInt
    if intPart.isEmpty && fracPart.isEmpty then false
    else match exponentPart afterFrac with
      | none => false
      | some e => (JsNum.mk false (digitsValue (intPart ++ fracPart)) (e - fracPart.length)).isPos

/-- Code unit of a hexadecimal digit. -/
def isHexDigit (u : Nat) : Bool :=
  isDigit u || (97 ≤ u && u ≤ 102) || (65 ≤ u && u ≤ 70)

/-- A non-empty run of digits of one radix, not all zero. -/
def radixDigitsPos (isRadixDigit : Nat → Bool) (ds : JsString) : Bool :=
  !ds.isEmpty && ds.all isRadixDigit && ds.any (fun d => d != 48)

/-- Whether `StringToNumber(s) > 0`: surrounding white space is skipped; the empty
string is `0`; `0x`, `0o` and `0b` literals carry no sign; anything outside the
`StringNumericLiteral` grammar is `NaN`, which is not greater than zero. -/
def stringToNumberPos (s : JsString) : Bool :=
  match trim s with
  | [] => false
  | c :: rest =>
    match rest with
    | [] => unsignedDecimalPos [c]
    | d :: ds =>
      if c = 48 ∧ (d = 120 ∨ d = 88) then radixDigitsPos isHexDigit ds
      else if c = 48 ∧ (d = 111 ∨ d = 79) then radixDigitsPos (fun u => 48 ≤ u && u ≤ 55) ds
      else if c = 48 ∧ (d = 98 ∨ d = 66) then radixDigitsPos (fun u => u == 48 || u == 49) ds
      else if c = 43 then unsignedDecimalPos rest
      else if c = 45 then false
      else unsignedDecimalPos (c :: rest)

/-- The comparison `v > 0`: `ToPrimitive` with hint number, then `ToNumber`;
`NaN` compares false. -/
def gtZero (numberToString : JsNum → JsString) (v : JsVal) : Except JsError Bool :=
  match v with
  | .undefined => .ok false
  | .null => .ok false
  | .bool b => .ok b
  | .num x => .ok x.isPos
  | .str s => .ok (stringToNumberPos s)
  | .arr xs => (toStringJs numberToString (.arr xs)).map stringToNumberPos
  | .obj kvs => (toStringJs numberToString (.obj kvs)).map stringToNumberPos

/-! ## `JSON.parse` -/

/-- JSON white space: tab, line feed, carriage return, space. -/
def isJsonSpace (u : Nat) : Bool := u == 9 || u == 10 || u == 13 || u == 32

/-- Skip JSON white space. -/
def skipSpace (s : JsString) : JsString := s.dropWhile isJsonSpace

/-- The value of one hexadecimal digit. -/
def hexValue (u : Nat) : Option Nat :=
  if isDigit u then some (u - 48)
  else if 97 ≤ u ∧ u ≤ 102 then some (u - 87)
  else if 65 ≤ u ∧ u ≤ 70 then some (u - 55)
  else none

/-- The code unit of a single-character escape `\"`, `\\`, `\/`, `\b`, `\f`,
`\n`, `\r`, `\t`. -/
def simpleEscape (u : Nat) : Option Nat :=
  if u = 34 then some 34
  else if u = 92 then some 92
  else if u = 47 then some 47
  else if u = 98 then some 8
  else if u = 102 then some 12
  else if u = 110 then some 10
  else if u = 114 then some 13
  else if u = 116 then some 9
  else none

/-- The characters of a JSON string after its opening quote, up to and including
the closing quote: the string value and the rest of the input. Control
characters below U+0020 must be escaped. -/
def parseStringChars : JsString → Option (JsString × JsString)
  | [] => none
  | [c] => if c = 34 then some ([], []) else none
  | c :: d :: rest =>
    if c = 34 then some ([], d :: rest)
    else if c = 92 then
      if d = 117 then
        match rest with
        | h1 :: h2 :: h3 :: h4 :: rest2 =>
          match hexValue h1, hexValue h2, hexValue h3, hexValue h4, parseStringChars rest2 with
          | some a, some b, some e, some f, some (cs, r) =>
            some ((4096 * a + 256 * b + 16 * e + f) :: cs, r)
          | _, _, _, _, _ => none
        | _ => none
      else
        match simpleEscape d, parseStringChars rest with
        | some u, some (cs, r) => some (u :: cs, r)
        | _, _ => none
    else if c < 32 then none
    else
      match parseStringChars (d :: rest) with
      | some (cs, r) => some (c :: cs, r)
      | none => none

/-- An optional fraction `. [0-9]+` at the head of the input: its digits and
the rest of the input. -/
def parseFraction (s : JsString) : Option (JsString × JsString) :=
  match s with
  | [] => some ([], [])
  | c :: t =>
    if c = 46 then
      (if (t.takeWhile isDigit).isEmpty then none
       else some (t.takeWhile isDigit, t.dropWhile isDigit))
    else some ([], c :: t)

/-- The digits `[0-9]+` of an exponent, negated when `negative`. -/
def parseExponentDigits (negative : Bool) (s : JsString) : Option (Int × JsString) :=
  if (s.takeWhile isDigit).isEmpty then none
  else
    some (if negative then -(digitsValue (s.takeWhile isDigit) : Int)
          else (digitsValue (s.takeWhile isDigit) : Int),
          s.dropWhile isDigit)

/-- An optional exponent `[eE] [+-]? [0-9]+` at the head of the input: its
value (zero when absent) and the rest of the input. -/
def parseExponent (s : JsString) : Option (Int × JsString) :=
  match s with
  | [] => some (0, [])
  | c :: t =>
    if c = 101 ∨ c = 69 then
      match t with
      | [] => none
      | sign :: ds =>
        if sign = 45 then parseExponentDigits true ds
        else if sign = 43 then parseExponentDigits false ds
        else parseExponentDigits false (sign :: ds)
    else some (0, c :: t)

/-- The integer part `0 | [1-9][0-9]*` at the head of the input: its digits
and the rest of the input. -/
def parseIntegerPart (s : JsString) : Option (JsString × JsString) :=
  if (s.takeWhile isDigit).isEmpty then none
  else if (s.takeWhile isDigit).head? = some 48 ∧ (s.takeWhile isDigit).length ≠ 1 then none
  else some (s.takeWhile isDigit, s.dropWhile isDigit)

/-- The number denoted by the parts of a JSON number. -/
def numberOfParts (neg : Bool) (intPart fracPart : JsString) (e : Int) : JsNum :=
  ⟨neg, digitsValue (intPart ++ fracPart), e - fracPart.length⟩

/-- A JSON number without its sign. -/
def parseUnsignedNumber (neg : Bool) (s : JsString) : Option (JsNum × JsString) :=
  match parseIntegerPart s with
  | none => none
  | some (intPart, s2) =>
    match parseFraction s2 with
    | none => none
    | some (fracPart, s3) =>
      match parseExponent s3 with
      | none => none
      | some (e, s4) => some (numberOfParts neg intPart fracPart e, s4)

/-- A JSON number at the head of the input:
`-? (0 | [1-9][0-9]*) (. [0-9]+)? ([eE] [+-]? [0-9]+)?`. -/
def parseNumber (s : JsString) : Option (JsNum × JsString) :=
  match s with
  | [] => none
  | c :: t => if c = 45 then parseUnsignedNumber true t else parseUnsignedNumber false (c :: t)

/-- Drop the literal `lit` from the head of `s`. -/
def dropLiteral (lit s : JsString) : Option JsString :=
  if lit.isPrefixOf s then some (s.drop lit.length) else none

mutual
/-- One JSON value, leading white space skipped: the value and the rest of the
input. The first argument bounds the number of nested calls. -/
def parseValue : Nat → JsString → Option (JsVal × JsString)
  | 0, _ => none
  | fuel + 1, s =>
    match skipSpace s with
    | [] => none
    | c :: rest =>
      if c = 123 then
        match skipSpace rest with
        | [] => none
        | d :: rest2 =>
          if d = 125 then some (.obj [], rest2)
          else (parseMembers fuel rest).map (fun r => (.obj r.1, r.2))
      else if c = 91 then
        match skipSpace rest with
        | [] => none
        | d :: rest2 =>
          if d = 93 then some (.arr [], rest2)
          else (parseElements fuel rest).map (fun r => (.arr r.1, r.2))
      else if c = 34 then (parseStringChars rest).map (fun r => (.str r.1, r.2))
      else if c = 116 then (dropLiteral (utf16 "true") (c :: rest)).map (fun r => (.bool true, r))
      else if c = 102 then (dropLiteral (utf16 "false") (c :: rest)).map (fun r => (.bool false, r))
      else if c = 110 then (dropLiteral (utf16 "null") (c :: rest)).map (fun r => (.null, r))
      else (parseNumber (c :: rest)).map (fun r => (.num r.1, r.2))
/-- The elements of a non-empty array after `[`, up to and including `]`. -/
def parseElements : Nat → JsString → Option (List JsVal × JsString)
  | 0, _ => none
  | fuel + 1, s =>
    match parseValue fuel s with
    | none => none
    | some (v, r) =>
      match skipSpace r with
      | [] => none
      | c :: r2 =>
        if c = 44 then (parseElements fuel r2).map (fun p => (v :: p.1, p.2))
        else if c = 93 then some ([v], r2)
        else none
/-- The members of a non-empty object after `{`, up to and including `}`. -/
def parseMembers : Nat → JsString → Option (List (JsString × JsVal) × JsString)
  | 0, _ => none
  | fuel + 1, s =>
    match skipSpace s with
    | [] => none
    | q :: r0 =>
      if q = 34 then
        match parseStringChars r0 with
        | none => none
        | some (k, r1) =>
          match skipSpace r1 with
          | [] => none
          | colon :: r2 =>
            if colon = 58 then
              match parseValue fuel r2 with
              | none => none
              | some (v, r3) =>
                match skipSpace r3 with
                | [] => none
                | c :: r4 =>
                  if c = 44 then (parseMembers fuel r4).map (fun p => ((k, v) :: p.1, p.2))
                  else if c = 125 then some ([(k, v)], r4)
                  else none
            else none
      else none
end

/-- The function `JSON.parse(text)`: the value of a text that is exactly one
JSON value between optional white space, a `SyntaxError` otherwise. Of any two
nested calls one consumes a character, so the bound never runs out
(`JSON_parse_ok_iff`). -/
def JSON.parse (text : JsString) : Except JsError JsVal :=
  match parseValue (2 * text.length + 2) text with
  | some (v, rest) => if (skipSpace rest).isEmpty then .ok v else .error .SyntaxError
  | none => .error .SyntaxError

/-! ## `extractText` -/

/-- The method call `v.replace(/\\n/g, '\n')`: defined on strings; on every
other value `replace` is missing or not a function, and the call throws. -/
def callReplace (v : JsVal) : Except JsError JsString :=
  match v with
  | .str s => .ok (replaceEscapedNewlines s)
  | _ => .error .TypeError

/-- The body of the `try` block of `extractText`: `some r` when the `return`
inside the `if` is reached, `none` when control falls out of the block, an
error when something throws. -/
def extractTextTry (numberToString : JsNum → JsString) (jsonString : JsString) :
    Except JsError (Option JsString) := do
  let data ← JSON.parse jsonString
  if !truthy data then return none
  let choices ← getProp data (utf16 "choices")
  if !truthy choices then return none
  let len ← getProp choices (utf16 "length")
  let nonEmpty ← gtZero numberToString len
  if !nonEmpty then return none
  let first ← getProp choices (utf16 "0")
  let text ← getProp first (utf16 "text")
  if !truthy text then return none
  let replaced ← callReplace text
  return some (trim replaced)

/-- One argument of a `console.error` call. -/
inductive LogArg where
  | text (s : JsString)
  | status (n : Nat)
  | thrown (e : JsError)
deriving DecidableEq, Repr

/-- One `console.error` call: its arguments. -/
abbrev LogLine := List LogArg

/-- One run of `extractText`: the returned string and what the `catch` block
logged. -/
def extractTextRun (numberToString : JsNum → JsString) (jsonString : JsString) :
    JsString × List LogLine :=
  match extractTextTry numberToString jsonString with
  | .ok (some r) => (r, [])
  | .ok none => ([], [])
  | .error e => ([], [[.text (utf16 "解析AI响应JSON失败:"), .thrown e]])

/-- The function `extractText(jsonString)`. -/
def extractText (numberToString : JsNum → JsString) (jsonString : JsString) : JsString :=
  (extractTextRun numberToString jsonString).1

/-! ## The AI routes -/

/-- The call `fetch(url, init)` as the handlers make it. `body` is the value
handed to `JSON.stringify`; the text on the wire is its serialisation. -/
structure Request where
  url : JsString
  method : JsString
  headers : List (JsString × JsString)
  body : JsVal
deriving DecidableEq, Repr

/-- What the environment answers to one `fetch`: the promise rejects, or it
resolves to a response with a status whose `text()` resolves to the body or
rejects. -/
inductive FetchOutcome where
  | rejected (error : JsError)
  | response (status : Nat) (text : Except JsError JsString)

/-- The flag `response.ok`: the status is in the range 200 to 299. -/
def statusOk (status : Nat) : Bool := 200 ≤ status && status ≤ 299

/-- What the caller of a route sees: `res.status(status).json(body)`. -/
structure HttpResponse where
  status : Nat
  body : JsVal
deriving DecidableEq, Repr

/-- How a handler run ends: a response is sent, or an exception leaves the
handler before any response. -/
inductive Outcome where
  | sent (response : HttpResponse)
  | uncaught (error : JsError)
deriving DecidableEq, Repr

/-- One run of a route handler: the calls of `fetch` it made, the lines it
logged, and how the run ended. -/
structure Run where
  fetches : List Request
  logs : List LogLine
  result : Outcome

/-- A configured secret `process.env.NAME`: absent, or a string. `!KEY` holds
when it is absent or empty. -/
def keyMissing (key : Option JsString) : Bool :=
  match key with
  | none => true
  | some k => k.isEmpty

/-- The text `${KEY}` inside a template literal. -/
def keyText (key : Option JsString) : JsString :=
  match key with
  | none => utf16 "undefined"
  | some k => k

/-- The object literal `{ code, msg }`. -/
def codeMsg (code : Nat) (msg : JsString) : JsVal :=
  .obj [(utf16 "code", .num (.ofNat code)), (utf16 "msg", .str msg)]

/-- The upstream endpoint both routes call. -/
def completionsUrl : JsString := utf16 "https://jiutian.10086.cn/largemodel/api/v2/completions"

/-- The `fetch` call of both routes, for a key and a prompt value. -/
def completionRequest (key : Option JsString) (prompt : JsVal) : Request :=
  { url := completionsUrl
    method := utf16 "POST"
    headers := [(utf16 "Content-Type", utf16 "application/json"),
                (utf16 "Authorization", utf16 "Bearer " ++ keyText key)]
    body := .obj [(utf16 "model", .str (utf16 "jiutian-lan")),
                  (utf16 "prompt", prompt),
                  (utf16 "max_tokens", .num (.ofNat 200))] }

/-- The template literal of `/ai/diagnosis` around the converted symptoms. -/
def diagnosisPrompt (shown : JsString) : JsString :=
  utf16 "根据症状：\"" ++ shown ++ utf16 "\"，请给出初步的健康建议和可能的原因。"

/-- The handler of `app.post('/ai/diagnosis', ...)`. -/
def aiDiagnosis (numberToString : JsNum → JsString) (AI_DIAGNOSIS_KEY : Option JsString)
    (fetch : Request → FetchOutcome) (reqBody : JsVal) : Run :=
  match getProp reqBody (utf16 "symptoms") with
  | .error e => ⟨[], [], .uncaught e⟩
  | .ok symptoms =>
    if !truthy symptoms then
      ⟨[], [], .sent ⟨400, codeMsg 400 (utf16 "症状是必填项")⟩⟩
    else if keyMissing AI_DIAGNOSIS_KEY then
      ⟨[], [], .sent ⟨500, codeMsg 500 (utf16 "服务端未配置智能诊断的AI API KEY")⟩⟩
    else
      match toStringJs numberToString symptoms with
      | .error e =>
        ⟨[], [[.text (utf16 "调用AI诊断API时出错:"), .thrown e]],
          .sent ⟨500, codeMsg 500 (utf16 "智能诊断服务异常")⟩⟩
      | .ok shown =>
        let request := completionRequest AI_DIAGNOSIS_KEY (.str (diagnosisPrompt shown))
        match fetch request with
        | .rejected e =>
          ⟨[request], [[.text (utf16 "调用AI诊断API时出错:"), .thrown e]],
            .sent ⟨500, codeMsg 500 (utf16 "智能诊断服务异常")⟩⟩
        | .response _ (.error e) =>
          ⟨[request], [[.text (utf16 "调用AI诊断API时出错:"), .thrown e]],
            .sent ⟨500, codeMsg 500 (utf16 "智能诊断服务异常")⟩⟩
        | .response status (.ok responseText) =>
          if !statusOk status then
            ⟨[request], [[.text (utf16 "AI API 错误:"), .status status, .text responseText]],
              .sent ⟨500, codeMsg 500 (utf16 "智能诊断服务异常")⟩⟩
          else
            let extracted := extractTextRun numberToString responseText
            ⟨[request], extracted.2,
              .sent ⟨200, .obj [(utf16 "code", .num (.ofNat 0)),
                              (utf16 "diagnosis", .str extracted.1)]⟩⟩

/-- The handler of `app.post('/ai/ask', ...)`. -/
def aiAsk (numberToString : JsNum → JsString) (AI_ASK_KEY : Option JsString)
    (fetch : Request → FetchOutcome) (reqBody : JsVal) : Run :=
  match getProp reqBody (utf16 "question") with
  | .error e => ⟨[], [], .uncaught e⟩
  | .ok question =>
    if !truthy question then
      ⟨[], [], .sent ⟨400, codeMsg 400 (utf16 "问题是必填项")⟩⟩
    else if keyMissing AI_ASK_KEY then
      ⟨[], [], .sent ⟨500, codeMsg 500 (utf16 "服务端未配置AI问答的AI API KEY")⟩⟩
    else
      let request := completionRequest AI_ASK_KEY question
      match fetch request with
      | .rejected e =>
        ⟨[request], [[.text (utf16 "调用AI问答API时出错:"), .thrown e]],
          .sent ⟨500, codeMsg 500 (utf16 "AI服务异常")⟩⟩
      | .response _ (.error e) =>
        ⟨[request], [[.text (utf16 "调用AI问答API时出错:"), .thrown e]],
          .sent ⟨500, codeMsg 500 (utf16 "AI服务异常")⟩⟩
      | .response status (.ok responseText) =>
        if !statusOk status then
          ⟨[request], [[.text (utf16 "AI API 错误:"), .status status, .text responseText]],
            .sent ⟨500, codeMsg 500 (utf16 "AI服务异常")⟩⟩
        else
          let extracted := extractTextRun numberToString responseText
          ⟨[request], extracted.2,
            .sent ⟨200, .obj [(utf16 "code", .num (.ofNat 0)),
                            (utf16 "answer", .str extracted.1)]⟩⟩

/-! ## Predicates and sample data used in the statements -/

/-- The normalisation `extractText` applies to the text it found:
`.replace(/\\n/g, '\n').trim()`. -/
def norm (t : JsString) : JsString := trim (replaceEscapedNewlines t)

/-- Whether a backslash (92) immediately followed by `n` (110) occurs in `s`. -/
def hasEscapedNewline : JsString → Bool
  | [] => false
  | [_] => false
  | c :: d :: rest => (c == 92 && d == 110) || hasEscapedNewline (d :: rest)

/-- Whether `s` neither starts nor ends with a character that `trim` strips. -/
def isTrimmed (s : JsString) : Bool :=
  s.head?.all (fun c => !isTrimSpace c) && s.getLast?.all (fun c => !isTrimSpace c)

/-- A first choice from which no answer can be taken: it is `null` or another
non-object (so it has no `text`), an object without `text`, or an object whose
`text` is the empty string or not a string. -/
def badChoice : JsVal → Bool
  | .obj members =>
    match ownProperty members (utf16 "text") with
    | none => true
    | some (.str s) => s.isEmpty
    | some _ => true
  | _ => true

/-- A parsed body without an answer: it has no `choices`, or `choices` is an
empty sequence, or the first choice is a `badChoice`. -/
def lacksAnswer : JsVal → Bool
  | .obj kvs =>
    match ownProperty kvs (utf16 "choices") with
    | none => true
    | some (.arr []) => true
    | some (.arr (c :: _)) => badChoice c
    | some _ => false
  | _ => true

/-- The bodies on which extraction fails: not valid JSON, or valid JSON whose
value lacks an answer. -/
def extractionFails (body : JsString) : Bool :=
  match JSON.parse body with
  | .error _ => true
  | .ok data => lacksAnswer data

/-- Whether an upstream outcome is a failure: the `fetch` promise rejects,
reading the body rejects, or the status is outside 200 to 299. -/
def upstreamFailed : FetchOutcome → Bool
  | .rejected _ => true
  | .response _ (.error _) => true
  | .response status (.ok _) => !statusOk status

/-- The response both failure paths of `/ai/diagnosis` send. -/
def diagnosisFailure : HttpResponse := ⟨500, codeMsg 500 (utf16 "智能诊断服务异常")⟩

/-- The response both failure paths of `/ai/ask` send. -/
def askFailure : HttpResponse := ⟨500, codeMsg 500 (utf16 "AI服务异常")⟩

/-- The platform's `Number::toString` on integer literals written without
exponent, of magnitude at most `2^53`. It stands for the platform function when
the examples are run; none of them converts any other number. -/
def integerToString (x : JsNum) : JsString :=
  (if x.neg && x.mant != 0 then [45] else []) ++ (Nat.toDigits 10 x.mant).map Char.toNat

/-- The upstream body `{"choices":[{"text":"A\\nB "}]}`, whose text is `A`,
backslash, `n`, `B`, space. -/
def sampleEscaped : JsString := utf16 "\x7b\"choices\":[\x7b\"text\":\"A\\\\nB \"\x7d]\x7d"

/-- The upstream body `{"choices":[{"text":"x"}]}`. -/
def sampleCompletion : JsString := utf16 "\x7b\"choices\":[\x7b\"text\":\"x\"\x7d]\x7d"

/-- The upstream body `{"choices":[{"text":"建议多休息"}]}`. -/
def sampleAdvice : JsString := utf16 "\x7b\"choices\":[\x7b\"text\":\"建议多休息\"\x7d]\x7d"

/-- The request body `{"symptoms":"头痛"}`. -/
def symptomsHeadache : JsVal := .obj [(utf16 "symptoms", .str (utf16 "头痛"))]

/-- The request body `{"question":"头痛"}`. -/
def questionHeadache : JsVal := .obj [(utf16 "question", .str (utf16 "头痛"))]

/-! ## `JSON.parse`: the recursion bound is sufficient -/

theorem skipSpace_length_le (s : JsString) : (skipSpace s).length ≤ s.length :=
  (List.dropWhile_suffix isJsonSpace).length_le

theorem parseStringChars_length_le : ∀ (s cs r : JsString),
    parseStringChars s = some (cs, r) → r.length ≤ s.length
  | [], _, _, h => by simp [parseStringChars] at h
  | [c], cs, r, h => by
    simp only [parseStringChars] at h
    split at h
    · simp only [Option.some.injEq, Prod.mk.injEq] at h; simp [← h.2]
    · simp at h
  | c :: d :: rest, cs, r, h => by
    unfold parseStringChars at h
    split at h
    · simp only [Option.some.injEq, Prod.mk.injEq] at h; simp [← h.2]
    · split at h
      · split at h
        · split at h
          · rename_i h1 h2 h3 h4 rest2
            split at h
            · rename_i a b e f cs2 r2 _ _ _ _ hrec
              simp only [Option.some.injEq, Prod.mk.injEq] at h
              have := parseStringChars_length_le rest2 cs2 r2 hrec
              rw [← h.2]; simp; omega
            · simp at h
          · simp at h
        · split at h
          · rename_i u cs2 r2 _ hrec
            simp only [Option.some.injEq, Prod.mk.injEq] at h
            have := parseStringChars_length_le rest cs2 r2 hrec
            rw [← h.2]; simp; omega
          · simp at h
      · split at h
        · simp at h
        · split at h
          · rename_i cs2 r2 hrec
            simp only [Option.some.injEq, Prod.mk.injEq] at h
            have := parseStringChars_length_le (d :: rest) cs2 r2 hrec
            rw [← h.2]; simp at this ⊢; omega
          · simp at h

theorem parseFraction_length_le (s ds r : JsString) (h : parseFraction s = some (ds, r)) :
    r.length ≤ s.length := by
  unfold parseFraction at h
  split at h
  · simp only [Option.some.injEq, Prod.mk.injEq] at h; simp [← h.2]
  · rename_i c t
    split at h
    · split at h
      · simp at h
      · simp only [Option.some.injEq, Prod.mk.injEq] at h
        have := (List.dropWhile_suffix isDigit (l := t)).length_le
        rw [← h.2]; simp; omega
    · simp only [Option.some.injEq, Prod.mk.injEq] at h; simp [← h.2]

theorem parseExponentDigits_length_le (negative : Bool) (s : JsString) (e : Int) (r : JsString)
    (h : parseExponentDigits negative s = some (e, r)) : r.length ≤ s.length := by
  unfold parseExponentDigits at h
  split at h
  · simp at h
  · simp only [Option.some.injEq, Prod.mk.injEq] at h
    rw [← h.2]
    exact (List.dropWhile_suffix isDigit).length_le

theorem parseExponent_length_le (s : JsString) (e : Int) (r : JsString)
    (h : parseExponent s = some (e, r)) : r.length ≤ s.length := by
  unfold parseExponent at h
  split at h
  · simp only [Option.some.injEq, Prod.mk.injEq] at h; simp [← h.2]
  · rename_i c t
    split at h
    · split at h
      · simp at h
      · rename_i sign ds
        split at h
        · have := parseExponentDigits_length_le _ _ _ _ h
          simp; omega
        · split at h
          · have := parseExponentDigits_length_le _ _ _ _ h
            simp; omega
          · have := parseExponentDigits_length_le _ _ _ _ h
            simp at this ⊢; omega
    · simp only [Option.some.injEq, Prod.mk.injEq] at h; simp [← h.2]

theorem parseIntegerPart_length_le (s ds r : JsString) (h : parseIntegerPart s = some (ds, r)) :
    r.length ≤ s.length := by
  unfold parseIntegerPart at h
  split at h
  · simp at h
  · split at h
    · simp at h
    · simp only [Option.some.injEq, Prod.mk.injEq] at h
      rw [← h.2]
      exact (List.dropWhile_suffix isDigit).length_le

theorem parseUnsignedNumber_length_le (neg : Bool) (s : JsString) (x : JsNum) (r : JsString)
    (h : parseUnsignedNumber neg s = some (x, r)) : r.length ≤ s.length := by
  unfold parseUnsignedNumber at h
  split at h
  · simp at h
  · rename_i intPart s2 h1
    split at h
    · simp at h
    · rename_i fracPart s3 h2
      split at h
      · simp at h
      · rename_i e s4 h3
        simp only [Option.some.injEq, Prod.mk.injEq] at h
        have a := parseIntegerPart_length_le _ _ _ h1
        have b := parseFraction_length_le _ _ _ h2
        have c := parseExponent_length_le _ _ _ h3
        rw [← h.2]; omega

theorem parseNumber_length_le (s : JsString) (x : JsNum) (r : JsString)
    (h : parseNumber s = some (x, r)) : r.length ≤ s.length := by
  unfold parseNumber at h
  split at h
  · simp at h
  · split at h
    · have := parseUnsignedNumber_length_le _ _ _ _ h
      simp; omega
    · exact parseUnsignedNumber_length_le _ _ _ _ h

theorem dropLiteral_length_le (lit s r : JsString) (h : dropLiteral lit s = some r) :
    r.length ≤ s.length := by
  unfold dropLiteral at h
  split at h
  · simp only [Option.some.injEq] at h
    rw [← h]
    simp
  · simp at h


/-- Whatever a parser returns with some bound, it returns with every bound
above twice the input length (plus a constant), and the rest it leaves is no
longer than its input. -/
theorem parse_fuel (f : Nat) :
    (∀ s r, parseValue f s = some r →
      r.2.length ≤ s.length ∧ ∀ g, 2 * s.length + 2 ≤ g → parseValue g s = some r) ∧
    (∀ s r, parseElements f s = some r →
      r.2.length ≤ s.length ∧ ∀ g, 2 * s.length + 3 ≤ g → parseElements g s = some r) ∧
    (∀ s r, parseMembers f s = some r →
      r.2.length ≤ s.length ∧ ∀ g, 2 * s.length + 1 ≤ g → parseMembers g s = some r) := by
  induction f with
  | zero => simp [parseValue, parseElements, parseMembers]
  | succ f ih =>
    obtain ⟨ihV, ihE, ihM⟩ := ih
    refine ⟨?_, ?_, ?_⟩
    · intro s r h
      unfold parseValue at h
      have hsp := skipSpace_length_le s
      cases hs : skipSpace s with
      | nil => simp [hs] at h
      | cons c rest =>
        rw [hs] at hsp
        simp only [hs] at h
        simp only [List.length_cons] at hsp
        by_cases h123 : c = 123
        · subst h123
          simp only [↓reduceIte] at h
          have hsp2 := skipSpace_length_le rest
          cases hs2 : skipSpace rest with
          | nil => simp [hs2] at h
          | cons d rest2 =>
            rw [hs2] at hsp2
            simp only [List.length_cons] at hsp2
            simp only [hs2] at h
            by_cases h125 : d = 125
            · simp only [h125, ↓reduceIte, Option.some.injEq] at h
              subst h
              refine ⟨by simp only; omega, fun g hg => ?_⟩
              obtain ⟨g', rfl⟩ : ∃ g', g = g' + 1 := ⟨g - 1, by omega⟩
              unfold parseValue
              simp [hs, hs2, h125]
            · simp only [h125, ↓reduceIte] at h
              cases hm : parseMembers f rest with
              | none => simp [hm] at h
              | some m =>
                simp only [hm, Option.map_some', Option.some.injEq] at h
                obtain ⟨hlen, hfuel⟩ := ihM rest m hm
                subst h
                refine ⟨by simp only; omega, fun g hg => ?_⟩
                obtain ⟨g', rfl⟩ : ∃ g', g = g' + 1 := ⟨g - 1, by omega⟩
                unfold parseValue
                simp [hs, hs2, h125, hfuel g' (by omega)]
        · simp only [h123, ↓reduceIte] at h
          by_cases h91 : c = 91
          · subst h91
            simp only [↓reduceIte] at h
            have hsp2 := skipSpace_length_le rest
            cases hs2 : skipSpace rest with
            | nil => simp [hs2] at h
            | cons d rest2 =>
              rw [hs2] at hsp2
              simp only [List.length_cons] at hsp2
              simp only [hs2] at h
              by_cases h93 : d = 93
              · simp only [h93, ↓reduceIte, Option.some.injEq] at h
                subst h
                refine ⟨by simp only; omega, fun g hg => ?_⟩
                obtain ⟨g', rfl⟩ : ∃ g', g = g' + 1 := ⟨g - 1, by omega⟩
                unfold parseValue
                simp [hs, hs2, h93]
              · simp only [h93, ↓reduceIte] at h
                cases hm : parseElements f rest with
                | none => simp [hm] at h
                | some m =>
                  simp only [hm, Option.map_some', Option.some.injEq] at h
                  obtain ⟨hlen, hfuel⟩ := ihE rest m hm
                  subst h
                  refine ⟨by simp only; omega, fun g hg => ?_⟩
                  obtain ⟨g', rfl⟩ : ∃ g', g = g' + 1 := ⟨g - 1, by omega⟩
                  unfold parseValue
                  simp [hs, hs2, h93, hfuel g' (by omega)]
          · simp only [h91, ↓reduceIte] at h
            have hfuel : ∀ g, 2 * s.length + 2 ≤ g → parseValue g s = some r := by
              intro g hg
              obtain ⟨g', rfl⟩ : ∃ g', g = g' + 1 := ⟨g - 1, by omega⟩
              unfold parseValue
              simp only [hs, h123, h91, ↓reduceIte]
              exact h
            refine ⟨?_, hfuel⟩
            by_cases h34 : c = 34
            · simp only [h34, ↓reduceIte] at h
              cases hp : parseStringChars rest with
              | none => simp [hp] at h
              | some p =>
                simp only [hp, Option.map_some', Option.some.injEq] at h
                have := parseStringChars_length_le rest p.1 p.2 hp
                subst h
                simp only; omega
            · simp only [h34, ↓reduceIte] at h
              by_cases h116 : c = 116
              · simp only [h116, ↓reduceIte] at h
                cases hp : dropLiteral (utf16 "true") (116 :: rest) with
                | none => simp [hp] at h
                | some p =>
                  simp only [hp, Option.map_some', Option.some.injEq] at h
                  have := dropLiteral_length_le _ _ _ hp
                  subst h
                  simp only [List.length_cons] at this ⊢; omega
              · simp only [h116, ↓reduceIte] at h
                by_cases h102 : c = 102
                · simp only [h102, ↓reduceIte] at h
                  cases hp : dropLiteral (utf16 "false") (102 :: rest) with
                  | none => simp [hp] at h
                  | some p =>
                    simp only [hp, Option.map_some', Option.some.injEq] at h
                    have := dropLiteral_length_le _ _ _ hp
                    subst h
                    simp only [List.length_cons] at this ⊢; omega
                · simp only [h102, ↓reduceIte] at h
                  by_cases h110 : c = 110
                  · simp only [h110, ↓reduceIte] at h
                    cases hp : dropLiteral (utf16 "null") (110 :: rest) with
                    | none => simp [hp] at h
                    | some p =>
                      simp only [hp, Option.map_some', Option.some.injEq] at h
                      have := dropLiteral_length_le _ _ _ hp
                      subst h
                      simp only [List.length_cons] at this ⊢; omega
                  · simp only [h110, ↓reduceIte] at h
                    cases hp : parseNumber (c :: rest) with
                    | none => simp [hp] at h
                    | some p =>
                      simp only [hp, Option.map_some', Option.some.injEq] at h
                      have := parseNumber_length_le _ _ _ hp
                      subst h
                      simp only [List.length_cons] at this ⊢; omega
    · intro s r h
      unfold parseElements at h
      cases hv : parseValue f s with
      | none => simp [hv] at h
      | some p =>
        obtain ⟨v, r1⟩ := p
        simp only [hv] at h
        obtain ⟨hlen, hfuel⟩ := ihV s (v, r1) hv
        simp only at hlen
        have hsp := skipSpace_length_le r1
        cases hs : skipSpace r1 with
        | nil => simp [hs] at h
        | cons c r2 =>
          rw [hs] at hsp
          simp only [List.length_cons] at hsp
          simp only [hs] at h
          by_cases h44 : c = 44
          · simp only [h44, ↓reduceIte] at h
            cases he : parseElements f r2 with
            | none => simp [he] at h
            | some m =>
              simp only [he, Option.map_some', Option.some.injEq] at h
              obtain ⟨hlen2, hfuel2⟩ := ihE r2 m he
              subst h
              refine ⟨by simp only; omega, fun g hg => ?_⟩
              obtain ⟨g', rfl⟩ : ∃ g', g = g' + 1 := ⟨g - 1, by omega⟩
              unfold parseElements
              simp [hfuel g' (by omega), hs, h44, hfuel2 g' (by omega)]
          · simp only [h44, ↓reduceIte] at h
            by_cases h93 : c = 93
            · simp only [h93, ↓reduceIte, Option.some.injEq] at h
              subst h
              refine ⟨by simp only; omega, fun g hg => ?_⟩
              obtain ⟨g', rfl⟩ : ∃ g', g = g' + 1 := ⟨g - 1, by omega⟩
              unfold parseElements
              simp [hfuel g' (by omega), hs, h93]
            · simp [h93] at h
    · intro s r h
      unfold parseMembers at h
      have hsp := skipSpace_length_le s
      cases hs : skipSpace s with
      | nil => simp [hs] at h
      | cons q r0 =>
        rw [hs] at hsp
        simp only [List.length_cons] at hsp
        simp only [hs] at h
        by_cases h34 : q = 34
        · simp only [h34, ↓reduceIte] at h
          cases hk : parseStringChars r0 with
          | none => simp [hk] at h
          | some p =>
            obtain ⟨k, r1⟩ := p
            simp only [hk] at h
            have hlenk := parseStringChars_length_le r0 k r1 hk
            have hsp1 := skipSpace_length_le r1
            cases hs1 : skipSpace r1 with
            | nil => simp [hs1] at h
            | cons colon r2 =>
              rw [hs1] at hsp1
              simp only [List.length_cons] at hsp1
              simp only [hs1] at h
              by_cases h58 : colon = 58
              · simp only [h58, ↓reduceIte] at h
                cases hv : parseValue f r2 with
                | none => simp [hv] at h
                | some pv =>
                  obtain ⟨v, r3⟩ := pv
                  simp only [hv] at h
                  obtain ⟨hlenv, hfuelv⟩ := ihV r2 (v, r3) hv
                  simp only at hlenv
                  have hsp3 := skipSpace_length_le r3
                  cases hs3 : skipSpace r3 with
                  | nil => simp [hs3] at h
                  | cons c r4 =>
                    rw [hs3] at hsp3
                    simp only [List.length_cons] at hsp3
                    simp only [hs3] at h
                    by_cases h44 : c = 44
                    · simp only [h44, ↓reduceIte] at h
                      cases hm : parseMembers f r4 with
                      | none => simp [hm] at h
                      | some m =>
                        simp only [hm, Option.map_some', Option.some.injEq] at h
                        obtain ⟨hlen2, hfuel2⟩ := ihM r4 m hm
                        subst h
                        refine ⟨by simp only; omega, fun g hg => ?_⟩
                        obtain ⟨g', rfl⟩ : ∃ g', g = g' + 1 := ⟨g - 1, by omega⟩
                        unfold parseMembers
                        simp [hs, h34, hk, hs1, h58, hfuelv g' (by omega), hs3, h44,
                          hfuel2 g' (by omega)]
                    · simp only [h44, ↓reduceIte] at h
                      by_cases h125 : c = 125
                      · simp only [h125, ↓reduceIte, Option.some.injEq] at h
                        subst h
                        refine ⟨by simp only; omega, fun g hg => ?_⟩
                        obtain ⟨g', rfl⟩ : ∃ g', g = g' + 1 := ⟨g - 1, by omega⟩
                        unfold parseMembers
                        simp [hs, h34, hk, hs1, h58, hfuelv g' (by omega), hs3, h125]
                      · simp [h125] at h
              · simp [h58] at h
        · simp [h34] at h


/-- The bound of `JSON.parse` never runs out: the text parses with some bound
exactly when `JSON.parse` returns the value. -/
theorem JSON_parse_ok_iff (text : JsString) (v : JsVal) :
    JSON.parse text = .ok v ↔
      ∃ f rest, parseValue f text = some (v, rest) ∧ (skipSpace rest).isEmpty = true := by
  constructor
  · intro h
    unfold JSON.parse at h
    cases hp : parseValue (2 * text.length + 2) text with
    | none => simp [hp] at h
    | some p =>
      obtain ⟨w, rest⟩ := p
      simp only [hp] at h
      split at h
      · rename_i hrest
        simp only [Except.ok.injEq] at h
        subst h
        exact ⟨_, rest, hp, hrest⟩
      · simp at h
  · rintro ⟨f, rest, hp, hrest⟩
    have := ((parse_fuel f).1 text (v, rest) hp).2 (2 * text.length + 2) (le_refl _)
    unfold JSON.parse
    simp [this, hrest]

/-! ## Normalisation: escaped newlines and trimming -/

theorem hasEscapedNewline_cons (a : Nat) (s : JsString) :
    hasEscapedNewline (a :: s) = ((a == 92 && s.head? == some 110) || hasEscapedNewline s) := by
  cases s with
  | nil => simp [hasEscapedNewline]
  | cons d rest => simp [hasEscapedNewline]

theorem head?_replaceEscapedNewlines (s : JsString)
    (h : (replaceEscapedNewlines s).head? = some 110) : s.head? = some 110 := by
  match s with
  | [] => simp [replaceEscapedNewlines] at h
  | [c] => simpa [replaceEscapedNewlines] using h
  | c :: d :: rest =>
    by_cases hm : c = 92 ∧ d = 110
    · simp [replaceEscapedNewlines, hm] at h
    · simpa [replaceEscapedNewlines, hm] using h

/-- The global replace leaves no backslash-n behind: a backslash it keeps was
not followed by `n`, and what it inserts is a line feed. -/
theorem hasEscapedNewline_replace (s : JsString) :
    hasEscapedNewline (replaceEscapedNewlines s) = false := by
  induction s using replaceEscapedNewlines.induct with
  | case1 => simp [replaceEscapedNewlines, hasEscapedNewline]
  | case2 c => simp [replaceEscapedNewlines, hasEscapedNewline]
  | case3 c d rest hm ih =>
    simp only [replaceEscapedNewlines, hm, and_self, if_true, hasEscapedNewline_cons, ih]
    simp
  | case4 c d rest hm ih =>
    simp only [replaceEscapedNewlines, hm, if_false, hasEscapedNewline_cons, ih, Bool.or_false]
    by_cases hc : c = 92
    · have hd : d ≠ 110 := fun hd => hm ⟨hc, hd⟩
      have : (replaceEscapedNewlines (d :: rest)).head? ≠ some 110 := by
        intro hh
        have := head?_replaceEscapedNewlines _ hh
        simp at this
        exact hd this
      simp [this]
    · simp [hc]

/-- Without a backslash-n the replace changes nothing. -/
theorem replace_of_not_hasEscapedNewline (s : JsString) (h : hasEscapedNewline s = false) :
    replaceEscapedNewlines s = s := by
  induction s using replaceEscapedNewlines.induct with
  | case1 => rfl
  | case2 c => rfl
  | case3 c d rest hm ih => simp [hasEscapedNewline, hm] at h
  | case4 c d rest hm ih =>
    simp only [hasEscapedNewline, Bool.or_eq_false_iff] at h
    simp [replaceEscapedNewlines, hm, ih h.2]

theorem hasEscapedNewline_append_left (a b : JsString) (h : hasEscapedNewline (a ++ b) = false) :
    hasEscapedNewline a = false := by
  induction a with
  | nil => rfl
  | cons x xs ih =>
    rw [List.cons_append, hasEscapedNewline_cons] at h
    rw [hasEscapedNewline_cons]
    simp only [Bool.or_eq_false_iff] at h ⊢
    refine ⟨?_, ih h.2⟩
    cases xs with
    | nil => simp
    | cons y ys => simpa using h.1

theorem hasEscapedNewline_append_right (a b : JsString) (h : hasEscapedNewline (a ++ b) = false) :
    hasEscapedNewline b = false := by
  induction a with
  | nil => simpa using h
  | cons x xs ih =>
    rw [List.cons_append, hasEscapedNewline_cons] at h
    simp only [Bool.or_eq_false_iff] at h
    exact ih h.2

theorem hasEscapedNewline_trim (s : JsString) (h : hasEscapedNewline s = false) :
    hasEscapedNewline (trim s) = false := by
  have h1 : hasEscapedNewline (trimStart s) = false := by
    apply hasEscapedNewline_append_right (s.takeWhile isTrimSpace)
    rw [trimStart, List.takeWhile_append_dropWhile]; exact h
  obtain ⟨t, ht⟩ : trim s <+: trimStart s := List.rdropWhile_prefix isTrimSpace _
  apply hasEscapedNewline_append_left _ t
  rw [ht]; exact h1

theorem trim_eq_rdropWhile (s : JsString) :
    trim s = List.rdropWhile isTrimSpace (List.dropWhile isTrimSpace s) := rfl

/-- A trimmed string neither starts nor ends with white space. -/
theorem isTrimmed_trim (s : JsString) : isTrimmed (trim s) = true := by
  rw [trim_eq_rdropWhile]
  set d := List.dropWhile isTrimSpace s with hd
  have hhead : ∀ c, d.head? = some c → isTrimSpace c = false := by
    intro c hc
    have := List.head?_dropWhile_not isTrimSpace s
    rw [← hd, hc] at this
    simpa using this
  simp only [isTrimmed, Bool.and_eq_true]
  constructor
  · obtain ⟨t, ht⟩ : List.rdropWhile isTrimSpace d <+: d := List.rdropWhile_prefix isTrimSpace _
    cases hr : List.rdropWhile isTrimSpace d with
    | nil => simp
    | cons x xs =>
      rw [hr] at ht
      have : d.head? = some x := by rw [← ht]; rfl
      simp [hhead x this]
  · cases hr : (List.rdropWhile isTrimSpace d).getLast? with
    | none => simp
    | some x =>
      have hne : List.rdropWhile isTrimSpace d ≠ [] := by
        intro h0; rw [h0] at hr; simp at hr
      have hl := List.rdropWhile_last_not isTrimSpace d hne
      rw [List.getLast?_eq_getLast _ hne] at hr
      injection hr with hr
      rw [hr] at hl
      simpa using hl

/-- Trimming a string without white space at its ends changes nothing. -/
theorem trim_of_isTrimmed (s : JsString) (h : isTrimmed s = true) : trim s = s := by
  simp only [isTrimmed, Bool.and_eq_true] at h
  have h1 : List.dropWhile isTrimSpace s = s := by
    cases s with
    | nil => rfl
    | cons x xs =>
      have : isTrimSpace x = false := by simpa using h.1
      simp [List.dropWhile, this]
  rw [trim_eq_rdropWhile, h1, List.rdropWhile_eq_self_iff]
  intro hl
  have := h.2
  rw [List.getLast?_eq_getLast _ hl] at this
  simpa using this

theorem norm_norm (t : JsString) : norm (norm t) = norm t := by
  have h1 : hasEscapedNewline (norm t) = false :=
    hasEscapedNewline_trim _ (hasEscapedNewline_replace t)
  unfold norm at h1 ⊢
  rw [replace_of_not_hasEscapedNewline _ h1]
  exact trim_of_isTrimmed _ (isTrimmed_trim _)

/-! ## Extraction -/

theorem key_zero_ne_length : utf16 "0" ≠ utf16 "length" := by decide

theorem arrayIndex_zero : arrayIndex (utf16 "0") = some 0 := by decide

theorem getProp_arr_length (xs : List JsVal) :
    getProp (.arr xs) (utf16 "length") = .ok (.num (.ofNat xs.length)) := by
  simp [getProp]

theorem getProp_arr_zero (x : JsVal) (xs : List JsVal) :
    getProp (.arr (x :: xs)) (utf16 "0") = .ok x := by
  simp [getProp, key_zero_ne_length, arrayIndex_zero]

theorem getProp_obj (kvs : List (JsString × JsVal)) (key : JsString) :
    getProp (.obj kvs) key = .ok ((ownProperty kvs key).getD .undefined) := rfl

theorem gtZero_length_cons (numberToString : JsNum → JsString) (n : Nat) :
    gtZero numberToString (.num (.ofNat (n + 1))) = .ok true := by
  simp [gtZero, JsNum.isPos, JsNum.ofNat, JsNum.roundsToZero]

theorem extractText_of_first_text (numberToString : JsNum → JsString) (body : JsString)
    (kvs members : List (JsString × JsVal)) (rest : List JsVal) (t : JsString)
    (hparse : JSON.parse body = .ok (.obj kvs))
    (hchoices : ownProperty kvs (utf16 "choices") = some (.arr (.obj members :: rest)))
    (htext : ownProperty members (utf16 "text") = some (.str t)) :
    extractText numberToString body = norm t := by
  unfold extractText extractTextRun extractTextTry
  simp only [hparse, bind, Except.bind, truthy, getProp_obj, hchoices, Option.getD,
    getProp_arr_length, List.length_cons, gtZero_length_cons, getProp_arr_zero, htext]
  cases t with
  | nil => simp [pure, Except.pure, norm, replaceEscapedNewlines, trim, trimStart, trimEnd]
  | cons c cs => simp [callReplace, norm, pure, Except.pure]

theorem key_choices_ne_length : utf16 "choices" ≠ utf16 "length" := by decide

theorem arrayIndex_choices : arrayIndex (utf16 "choices") = none := by decide

theorem key_text_ne_length : utf16 "text" ≠ utf16 "length" := by decide

theorem arrayIndex_text : arrayIndex (utf16 "text") = none := by decide

theorem extractTextRun_fst_of_error (numberToString : JsNum → JsString) (body : JsString)
    (e : JsError) (h : extractTextTry numberToString body = .error e) :
    extractText numberToString body = [] := by
  simp [extractText, extractTextRun, h]

theorem extractTextRun_fst_of_none (numberToString : JsNum → JsString) (body : JsString)
    (h : extractTextTry numberToString body = .ok none) :
    extractText numberToString body = [] := by
  simp [extractText, extractTextRun, h]

/-- A parsed body without an answer makes the `try` block of `extractText`
either throw or fall through, so the function returns the empty string. -/
theorem extractText_of_lacksAnswer (numberToString : JsNum → JsString) (body : JsString)
    (data : JsVal) (hparse : JSON.parse body = .ok data) (h : lacksAnswer data = true) :
    extractText numberToString body = [] := by
  have step : (∃ e, extractTextTry numberToString body = .error e) ∨
      extractTextTry numberToString body = .ok none := by
    unfold extractTextTry
    simp only [hparse, bind, Except.bind, pure, Except.pure]
    cases data with
    | undefined => simp [truthy]
    | null => simp [truthy]
    | bool b => cases b <;> simp [truthy, getProp]
    | num x => cases hx : x.roundsToZero <;> simp [truthy, getProp, hx]
    | str s =>
      cases s with
      | nil => simp [truthy]
      | cons c cs => simp [truthy, getProp, key_choices_ne_length, arrayIndex_choices]
    | arr xs => simp [truthy, getProp, key_choices_ne_length, arrayIndex_choices]
    | obj kvs =>
      simp only [lacksAnswer] at h
      simp only [truthy, getProp_obj, Bool.not_true, Bool.false_eq_true, if_false]
      cases hc : ownProperty kvs (utf16 "choices") with
      | none => simp [truthy]
      | some choices =>
        rw [hc] at h
        cases choices with
        | undefined => simp at h
        | null => simp at h
        | bool b => simp at h
        | num x => simp at h
        | str s => simp at h
        | obj m => simp at h
        | arr xs =>
          cases xs with
          | nil =>
            simp [truthy, getProp_arr_length, gtZero, JsNum.isPos, JsNum.ofNat,
              JsNum.roundsToZero]
          | cons c rest =>
            simp only [Option.getD, truthy, getProp_arr_length, List.length_cons,
              gtZero_length_cons, getProp_arr_zero, Bool.not_true, Bool.false_eq_true,
              if_false]
            simp only at h
            cases c with
            | undefined => simp [getProp]
            | null => simp [getProp]
            | bool b => simp [getProp, truthy]
            | num x => simp [getProp, truthy]
            | str s => simp [getProp, truthy, key_text_ne_length, arrayIndex_text]
            | arr ys => simp [getProp, truthy, key_text_ne_length, arrayIndex_text]
            | obj m =>
              simp only [badChoice] at h
              simp only [getProp_obj]
              cases ht : ownProperty m (utf16 "text") with
              | none => simp [truthy]
              | some text =>
                rw [ht] at h
                cases text with
                | undefined => simp [truthy]
                | null => simp [truthy]
                | bool b => cases b <;> simp [truthy, callReplace]
                | num x => cases hx : x.roundsToZero <;> simp [truthy, callReplace, hx]
                | str s =>
                  have hs : s = [] := by simpa using h
                  simp [truthy, hs]
                | arr ys => simp [truthy, callReplace]
                | obj m2 => simp [truthy, callReplace]
  rcases step with ⟨e, he⟩ | hn
  · exact extractTextRun_fst_of_error numberToString body e he
  · exact extractTextRun_fst_of_none numberToString body hn

theorem callReplace_ok {v : JsVal} {out : JsString} (h : callReplace v = .ok out) :
    ∃ s, out = replaceEscapedNewlines s := by
  cases v with
  | str s => exact ⟨s, by simpa [callReplace] using h.symm⟩
  | undefined => simp [callReplace] at h
  | null => simp [callReplace] at h
  | bool b => simp [callReplace] at h
  | num x => simp [callReplace] at h
  | arr xs => simp [callReplace] at h
  | obj kvs => simp [callReplace] at h

/-- The only string the `try` block of `extractText` returns is a normalised
one. -/
theorem extractTextTry_some (numberToString : JsNum → JsString) (body r : JsString)
    (h : extractTextTry numberToString body = .ok (some r)) : ∃ t, r = norm t := by
  unfold extractTextTry at h
  simp only [bind, Except.bind, pure, Except.pure] at h
  repeat' split at h
  all_goals first
    | (simp at h; done)
    | skip
  rename_i replaced hreplaced
  obtain ⟨s, hs⟩ := callReplace_ok hreplaced
  refine ⟨s, ?_⟩
  simp only [Except.ok.injEq, Option.some.injEq] at h
  rw [← h, hs, norm]

theorem extractText_eq_nil_or_norm (numberToString : JsNum → JsString) (body : JsString) :
    extractText numberToString body = [] ∨ ∃ t, extractText numberToString body = norm t := by
  unfold extractText extractTextRun
  cases h : extractTextTry numberToString body with
  | error e => exact Or.inl rfl
  | ok r =>
    cases r with
    | none => exact Or.inl rfl
    | some r => exact Or.inr (extractTextTry_some numberToString body r h)

theorem hasEscapedNewline_norm (t : JsString) : hasEscapedNewline (norm t) = false :=
  hasEscapedNewline_trim _ (hasEscapedNewline_replace t)

theorem isTrimmed_norm (t : JsString) : isTrimmed (norm t) = true := isTrimmed_trim _

/-! ## The AI routes: lemmas -/

/-- With a truthy input and a configured key, every failing upstream makes
`/ai/diagnosis` send its one failure response. -/
theorem aiDiagnosis_result_of_failed (numberToString : JsNum → JsString)
    (key : Option JsString) (fetch : Request → FetchOutcome) (reqBody input : JsVal)
    (hbody : getProp reqBody (utf16 "symptoms") = .ok input) (hinput : truthy input = true)
    (hkey : keyMissing key = false) (hfetch : ∀ req, upstreamFailed (fetch req) = true) :
    (aiDiagnosis numberToString key fetch reqBody).result = .sent diagnosisFailure := by
  unfold aiDiagnosis
  simp only [hbody, hinput, hkey, Bool.not_true, Bool.false_eq_true, if_false]
  cases hs : toStringJs numberToString input with
  | error e => rfl
  | ok shown =>
    simp only
    have hf := hfetch (completionRequest key (.str (diagnosisPrompt shown)))
    cases ho : fetch (completionRequest key (.str (diagnosisPrompt shown))) with
    | rejected e => rfl
    | response status text =>
      cases text with
      | error e => rfl
      | ok b =>
        rw [ho] at hf
        simp only [upstreamFailed] at hf
        simp [hf, diagnosisFailure]

/-- With a truthy input and a configured key, every failing upstream makes
`/ai/ask` send its one failure response. -/
theorem aiAsk_result_of_failed (numberToString : JsNum → JsString)
    (key : Option JsString) (fetch : Request → FetchOutcome) (reqBody input : JsVal)
    (hbody : getProp reqBody (utf16 "question") = .ok input) (hinput : truthy input = true)
    (hkey : keyMissing key = false) (hfetch : ∀ req, upstreamFailed (fetch req) = true) :
    (aiAsk numberToString key fetch reqBody).result = .sent askFailure := by
  unfold aiAsk
  simp only [hbody, hinput, hkey, Bool.not_true, Bool.false_eq_true, if_false]
  have hf := hfetch (completionRequest key input)
  cases ho : fetch (completionRequest key input) with
  | rejected e => rfl
  | response status text =>
    cases text with
    | error e => rfl
    | ok b =>
      rw [ho] at hf
      simp only [upstreamFailed] at hf
      simp [hf, askFailure]

theorem errorBody_fields (code : Nat) (msg : JsString) :
    getProp (.obj [(utf16 "code", .num (.ofNat code)), (utf16 "msg", .str msg)])
        (utf16 "diagnosis") = .ok .undefined ∧
      getProp (.obj [(utf16 "code", .num (.ofNat code)), (utf16 "msg", .str msg)])
        (utf16 "answer") = .ok .undefined := by
  have h1 : utf16 "code" ≠ utf16 "diagnosis" := by decide
  have h2 : utf16 "msg" ≠ utf16 "diagnosis" := by decide
  have h3 : utf16 "code" ≠ utf16 "answer" := by decide
  have h4 : utf16 "msg" ≠ utf16 "answer" := by decide
  simp [getProp, ownProperty, h1, h2, h3, h4]

/-! ## The claims -/

/-- C1. When the body parses as a JSON object whose `choices` is a non-empty
array whose first element is an object with `text` equal to the string `t`,
whatever other members and later choices there are, `extractText` returns `t`
with every backslash-n replaced by a line feed and then trimmed. -/
theorem extractText_wellFormed (numberToString : JsNum → JsString) (body : JsString)
    (kvs members : List (JsString × JsVal)) (rest : List JsVal) (t : JsString)
    (hparse : JSON.parse body = .ok (.obj kvs))
    (hchoices : ownProperty kvs (utf16 "choices") = some (.arr (.obj members :: rest)))
    (htext : ownProperty members (utf16 "text") = some (.str t)) :
    extractText numberToString body = trim (replaceEscapedNewlines t) :=
  extractText_of_first_text numberToString body kvs members rest t hparse hchoices htext

/-- C1, at the body `{"choices":[{"text":"A\\nB "}]}`: the result is `A`,
line feed, `B`. -/
theorem extractText_wellFormed_witness :
    JSON.parse sampleEscaped =
        .ok (.obj [(utf16 "choices", .arr [.obj [(utf16 "text", .str (utf16 "A\\nB "))]])]) ∧
      extractText integerToString sampleEscaped =
        [65, 10, 66] :=
  ⟨by decide,
   (extractText_wellFormed integerToString sampleEscaped
      [(utf16 "choices", .arr [.obj [(utf16 "text", .str (utf16 "A\\nB "))]])]
      [(utf16 "text", .str (utf16 "A\\nB "))] [] (utf16 "A\\nB ")
      (by decide) (by decide) (by decide)).trans (by decide)⟩

/-- C2. On every body on which extraction fails (the text is not valid JSON,
or its value has no `choices`, an empty `choices` array, or a first choice that
is `null`, has no `text`, or has a `text` that is empty or not a string),
`extractText` returns the empty string; exceptions raised on the way are
absorbed by its `catch`. -/
theorem extractText_graceful (numberToString : JsNum → JsString) (body : JsString)
    (h : extractionFails body = true) : extractText numberToString body = [] := by
  unfold extractionFails at h
  cases hparse : JSON.parse body with
  | error e =>
    apply extractTextRun_fst_of_error numberToString body e
    simp [extractTextTry, hparse, bind, Except.bind]
  | ok data =>
    rw [hparse] at h
    exact extractText_of_lacksAnswer numberToString body data hparse h

/-- C2, at `{"choices":[]}`, `{}`, `{"choices":[null]}`, `{"choices":[{"text":5}]}`,
`{"choices":[{"text":""}]}` and the text `oops`; inside `extractText` the third
and fourth throw a `TypeError` and the last a `SyntaxError`. -/
theorem extractText_graceful_witness :
    extractText integerToString (utf16 "\x7b\"choices\":[]\x7d") = [] ∧
    extractText integerToString (utf16 "\x7b\x7d") = [] ∧
    extractText integerToString (utf16 "\x7b\"choices\":[null]\x7d") = [] ∧
    extractText integerToString (utf16 "\x7b\"choices\":[\x7b\"text\":5\x7d]\x7d") = [] ∧
    extractText integerToString (utf16 "\x7b\"choices\":[\x7b\"text\":\"\"\x7d]\x7d") = [] ∧
    extractText integerToString (utf16 "oops") = [] ∧
    extractTextTry integerToString (utf16 "\x7b\"choices\":[null]\x7d") = .error .TypeError ∧
    extractTextTry integerToString (utf16 "\x7b\"choices\":[\x7b\"text\":5\x7d]\x7d") = .error .TypeError ∧
    extractTextTry integerToString (utf16 "oops") = .error .SyntaxError :=
  ⟨extractText_graceful integerToString _ (by decide),
   extractText_graceful integerToString _ (by decide),
   extractText_graceful integerToString _ (by decide),
   extractText_graceful integerToString _ (by decide),
   extractText_graceful integerToString _ (by decide),
   extractText_graceful integerToString _ (by decide),
   by decide, by decide, by decide⟩

/-- C10. The normalisation `norm t = trim (replace every backslash-n by a line
feed)` is idempotent; its result holds no backslash-n and neither starts nor
ends with white space; and so does every value `extractText` returns. -/
theorem norm_idempotent_clean (t : JsString) :
    norm t = trim (replaceEscapedNewlines t) ∧
    norm (norm t) = norm t ∧
    hasEscapedNewline (norm t) = false ∧
    isTrimmed (norm t) = true ∧
    ∀ (numberToString : JsNum → JsString) (body : JsString),
      hasEscapedNewline (extractText numberToString body) = false ∧
      isTrimmed (extractText numberToString body) = true ∧
      norm (extractText numberToString body) = extractText numberToString body := by
  refine ⟨rfl, norm_norm t, hasEscapedNewline_norm t, isTrimmed_norm t, ?_⟩
  intro numberToString body
  rcases extractText_eq_nil_or_norm numberToString body with h | ⟨s, h⟩
  · rw [h]; decide
  · rw [h]; exact ⟨hasEscapedNewline_norm s, isTrimmed_norm s, norm_norm s⟩

/-- C10, at the text backslash, backslash, `n`, space: the replace gives
backslash, line feed, space, which holds no backslash-n; trimming gives
backslash alone, and normalising again changes nothing. -/
theorem norm_idempotent_clean_witness :
    replaceEscapedNewlines [92, 92, 110, 32] = [92, 10, 32] ∧
    norm [92, 92, 110, 32] = [92] ∧
    norm (norm [92, 92, 110, 32]) = norm [92, 92, 110, 32] :=
  ⟨by decide, by decide, (norm_idempotent_clean [92, 92, 110, 32]).2.1⟩

/-- C3, as stated, fails for `/ai/diagnosis`: the truthy input
`{"toString": 1}` cannot be converted to a string, so building the prompt
throws inside the `try`; although the key is configured and the upstream would
answer 200 with a well-formed completion, no request is issued and the caller
gets the 500 failure response instead of `{code: 0, diagnosis: "x"}`. -/
theorem aiDiagnosis_success_counterexample :
    truthy (.obj [(utf16 "toString", .num (.ofNat 1))]) = true ∧
    keyMissing (some (utf16 "sk-1")) = false ∧
    statusOk 200 = true ∧
    extractText integerToString sampleCompletion = utf16 "x" ∧
    (aiDiagnosis integerToString (some (utf16 "sk-1"))
        (fun _ => .response 200 (.ok sampleCompletion))
        (.obj [(utf16 "symptoms", .obj [(utf16 "toString", .num (.ofNat 1))])])).result
      = .sent ⟨500, codeMsg 500 (utf16 "智能诊断服务异常")⟩ ∧
    (aiDiagnosis integerToString (some (utf16 "sk-1"))
        (fun _ => .response 200 (.ok sampleCompletion))
        (.obj [(utf16 "symptoms", .obj [(utf16 "toString", .num (.ofNat 1))])])).fetches = [] ∧
    (aiDiagnosis integerToString (some (utf16 "sk-1"))
        (fun _ => .response 200 (.ok sampleCompletion))
        (.obj [(utf16 "symptoms", .obj [(utf16 "toString", .num (.ofNat 1))])])).result
      ≠ .sent ⟨200, .obj [(utf16 "code", .num (.ofNat 0)),
                          (utf16 "diagnosis", .str (utf16 "x"))]⟩ := by
  decide

/-- C3, amended. With a configured key and an upstream response with a 2xx
status and body `b`: `/ai/ask` answers `{code: 0, answer: extractText(b)}` for
every truthy input, and `/ai/diagnosis` answers
`{code: 0, diagnosis: extractText(b)}` for every truthy input whose conversion
to a string for the prompt succeeds, as it does for every string. An empty
extraction is still a success. -/
theorem ai_success_on_2xx (numberToString : JsNum → JsString) (key : Option JsString)
    (fetch : Request → FetchOutcome) (reqBody input : JsVal) (status : Nat) (b : JsString)
    (hkey : keyMissing key = false) (hinput : truthy input = true)
    (hrange : 200 ≤ status ∧ status ≤ 299) :
    (getProp reqBody (utf16 "question") = .ok input →
      fetch (completionRequest key input) = .response status (.ok b) →
      (aiAsk numberToString key fetch reqBody).result =
        .sent ⟨200, .obj [(utf16 "code", .num (.ofNat 0)),
                          (utf16 "answer", .str (extractText numberToString b))]⟩) ∧
    (∀ shown, getProp reqBody (utf16 "symptoms") = .ok input →
      toStringJs numberToString input = .ok shown →
      fetch (completionRequest key (.str (diagnosisPrompt shown))) = .response status (.ok b) →
      (aiDiagnosis numberToString key fetch reqBody).result =
        .sent ⟨200, .obj [(utf16 "code", .num (.ofNat 0)),
                          (utf16 "diagnosis", .str (extractText numberToString b))]⟩) ∧
    (∀ s : JsString, toStringJs numberToString (.str s) = .ok s) := by
  have hstatus : statusOk status = true := by
    simp only [statusOk, Bool.and_eq_true, decide_eq_true_eq]
    exact hrange
  refine ⟨?_, ?_, fun s => rfl⟩
  · intro hbody hfetch
    unfold aiAsk
    simp [hbody, hinput, hkey, hfetch, hstatus, extractText]
  · intro shown hbody hshown hfetch
    unfold aiDiagnosis
    simp [hbody, hinput, hkey, hshown, hfetch, hstatus, extractText]

/-- C3 (amended), at symptoms `头痛` with the upstream answering 200 and
`{"choices":[{"text":"建议多休息"}]}`: the caller gets
`{code: 0, diagnosis: "建议多休息"}`; and at question `头痛` with the upstream
answering 200 and `{}`: the caller gets `{code: 0, answer: ""}`. -/
theorem ai_success_on_2xx_witness :
    (aiDiagnosis integerToString (some (utf16 "sk-1"))
        (fun _ => .response 200 (.ok sampleAdvice)) symptomsHeadache).result =
      .sent ⟨200, .obj [(utf16 "code", .num (.ofNat 0)),
                        (utf16 "diagnosis", .str (utf16 "建议多休息"))]⟩ ∧
    (aiAsk integerToString (some (utf16 "sk-1"))
        (fun _ => .response 200 (.ok (utf16 "\x7b\x7d"))) questionHeadache).result =
      .sent ⟨200, .obj [(utf16 "code", .num (.ofNat 0)), (utf16 "answer", .str [])]⟩ :=
  ⟨((ai_success_on_2xx integerToString (some (utf16 "sk-1"))
        (fun _ => .response 200 (.ok sampleAdvice)) symptomsHeadache (.str (utf16 "头痛"))
        200 sampleAdvice (by decide) (by decide) (by decide)).2.1
      (utf16 "头痛") (by decide) (by decide) rfl).trans (by decide),
   ((ai_success_on_2xx integerToString (some (utf16 "sk-1"))
        (fun _ => .response 200 (.ok (utf16 "\x7b\x7d"))) questionHeadache
        (.str (utf16 "头痛")) 200 (utf16 "\x7b\x7d") (by decide) (by decide) (by decide)).1
      (by decide) rfl).trans (by decide)⟩

/-- C4. With a truthy input and a configured key, an upstream response whose
status is outside 200 to 299 makes both AI handlers answer HTTP 500 with
`{code: 500, msg}` and neither `diagnosis` nor `answer`, whatever the body. -/
theorem ai_non2xx_fails (numberToString : JsNum → JsString) (key : Option JsString)
    (fetch : Request → FetchOutcome) (reqBody input : JsVal)
    (hkey : keyMissing key = false) (hinput : truthy input = true)
    (hfetch : ∀ req, ∃ status body,
      fetch req = .response status (.ok body) ∧ ¬ (200 ≤ status ∧ status ≤ 299)) :
    (getProp reqBody (utf16 "symptoms") = .ok input →
      (aiDiagnosis numberToString key fetch reqBody).result =
        .sent ⟨500, .obj [(utf16 "code", .num (.ofNat 500)),
                          (utf16 "msg", .str (utf16 "智能诊断服务异常"))]⟩) ∧
    (getProp reqBody (utf16 "question") = .ok input →
      (aiAsk numberToString key fetch reqBody).result =
        .sent ⟨500, .obj [(utf16 "code", .num (.ofNat 500)),
                          (utf16 "msg", .str (utf16 "AI服务异常"))]⟩) ∧
    (∀ msg, getProp (.obj [(utf16 "code", .num (.ofNat 500)), (utf16 "msg", .str msg)])
        (utf16 "diagnosis") = .ok .undefined ∧
      getProp (.obj [(utf16 "code", .num (.ofNat 500)), (utf16 "msg", .str msg)])
        (utf16 "answer") = .ok .undefined) := by
  have hfailed : ∀ req, upstreamFailed (fetch req) = true := by
    intro req
    obtain ⟨status, body, ho, hst⟩ := hfetch req
    rw [ho]
    simp only [upstreamFailed, statusOk, Bool.not_eq_true', Bool.and_eq_false_iff,
      decide_eq_false_iff_not]
    omega
  refine ⟨fun hbody => ?_, fun hbody => ?_, fun msg => errorBody_fields 500 msg⟩
  · exact aiDiagnosis_result_of_failed numberToString key fetch reqBody input hbody hinput
      hkey hfailed
  · exact aiAsk_result_of_failed numberToString key fetch reqBody input hbody hinput
      hkey hfailed

/-- C4, at symptoms and question `头痛` with the upstream answering 404 and the
well-formed completion `{"choices":[{"text":"x"}]}`. -/
theorem ai_non2xx_fails_witness :
    (aiDiagnosis integerToString (some (utf16 "sk-1"))
        (fun _ => .response 404 (.ok sampleCompletion))
        symptomsHeadache).result =
      .sent ⟨500, .obj [(utf16 "code", .num (.ofNat 500)),
                        (utf16 "msg", .str (utf16 "智能诊断服务异常"))]⟩ ∧
    (aiAsk integerToString (some (utf16 "sk-1"))
        (fun _ => .response 404 (.ok sampleCompletion))
        questionHeadache).result =
      .sent ⟨500, .obj [(utf16 "code", .num (.ofNat 500)),
                        (utf16 "msg", .str (utf16 "AI服务异常"))]⟩ :=
  ⟨(ai_non2xx_fails integerToString (some (utf16 "sk-1"))
      (fun _ => .response 404 (.ok sampleCompletion))
      symptomsHeadache (.str (utf16 "头痛"))
      (by decide) (by decide)
      (fun _ => ⟨404, sampleCompletion, rfl, by decide⟩)).1 (by decide),
   (ai_non2xx_fails integerToString (some (utf16 "sk-1"))
      (fun _ => .response 404 (.ok sampleCompletion))
      questionHeadache (.str (utf16 "头痛"))
      (by decide) (by decide)
      (fun _ => ⟨404, sampleCompletion, rfl, by decide⟩)).2.1 (by decide)⟩

/-- C5. With a truthy input and the call site's secret missing or empty, each
AI handler answers HTTP 500 with code 500 and issues no upstream request. -/
theorem ai_missing_key (numberToString : JsNum → JsString) (key : Option JsString)
    (fetch : Request → FetchOutcome) (reqBody input : JsVal)
    (hkey : key = none ∨ key = some []) (hinput : truthy input = true) :
    (getProp reqBody (utf16 "symptoms") = .ok input →
      (aiDiagnosis numberToString key fetch reqBody).result =
        .sent ⟨500, .obj [(utf16 "code", .num (.ofNat 500)),
                          (utf16 "msg", .str (utf16 "服务端未配置智能诊断的AI API KEY"))]⟩ ∧
      (aiDiagnosis numberToString key fetch reqBody).fetches = []) ∧
    (getProp reqBody (utf16 "question") = .ok input →
      (aiAsk numberToString key fetch reqBody).result =
        .sent ⟨500, .obj [(utf16 "code", .num (.ofNat 500)),
                          (utf16 "msg", .str (utf16 "服务端未配置AI问答的AI API KEY"))]⟩ ∧
      (aiAsk numberToString key fetch reqBody).fetches = []) := by
  have hmissing : keyMissing key = true := by
    rcases hkey with h | h <;> simp [h, keyMissing]
  constructor
  · intro hbody
    unfold aiDiagnosis
    simp [hbody, hinput, hmissing, codeMsg]
  · intro hbody
    unfold aiAsk
    simp [hbody, hinput, hmissing, codeMsg]

/-- C5, at `AI_ASK_KEY` unset and question `血压高怎么办`, whatever the
upstream would have answered. -/
theorem ai_missing_key_witness :
    (aiAsk integerToString none (fun _ => .response 200 (.ok (utf16 "\x7b\x7d")))
        (.obj [(utf16 "question", .str (utf16 "血压高怎么办"))])).result =
      .sent ⟨500, .obj [(utf16 "code", .num (.ofNat 500)),
                        (utf16 "msg", .str (utf16 "服务端未配置AI问答的AI API KEY"))]⟩ ∧
    (aiAsk integerToString none (fun _ => .response 200 (.ok (utf16 "\x7b\x7d")))
        (.obj [(utf16 "question", .str (utf16 "血压高怎么办"))])).fetches = [] :=
  (ai_missing_key integerToString none (fun _ => .response 200 (.ok (utf16 "\x7b\x7d")))
    (.obj [(utf16 "question", .str (utf16 "血压高怎么办"))]) (.str (utf16 "血压高怎么办"))
    (Or.inl rfl) (by decide)).2 (by decide)

/-- C6. When the request body omits the required text field or gives it as the
empty string, each AI handler answers HTTP 400 with code 400 and issues no
upstream request, whether or not the key is configured. -/
theorem ai_missing_input (numberToString : JsNum → JsString) (key : Option JsString)
    (fetch : Request → FetchOutcome) (kvs : List (JsString × JsVal)) (field : JsString)
    (hfield : ownProperty kvs field = none ∨ ownProperty kvs field = some (.str [])) :
    (field = utf16 "symptoms" →
      (aiDiagnosis numberToString key fetch (.obj kvs)).result =
        .sent ⟨400, .obj [(utf16 "code", .num (.ofNat 400)),
                          (utf16 "msg", .str (utf16 "症状是必填项"))]⟩ ∧
      (aiDiagnosis numberToString key fetch (.obj kvs)).fetches = []) ∧
    (field = utf16 "question" →
      (aiAsk numberToString key fetch (.obj kvs)).result =
        .sent ⟨400, .obj [(utf16 "code", .num (.ofNat 400)),
                          (utf16 "msg", .str (utf16 "问题是必填项"))]⟩ ∧
      (aiAsk numberToString key fetch (.obj kvs)).fetches = []) := by
  constructor
  · intro hname
    subst hname
    unfold aiDiagnosis
    rcases hfield with h | h <;> simp [getProp_obj, h, truthy, codeMsg]
  · intro hname
    subst hname
    unfold aiAsk
    rcases hfield with h | h <;> simp [getProp_obj, h, truthy, codeMsg]

/-- C6, at a request without `symptoms` and without a key (400, not 500), and
at a request with an empty `question` and a configured key. -/
theorem ai_missing_input_witness :
    ((aiDiagnosis integerToString none (fun _ => .response 200 (.ok (utf16 "\x7b\x7d")))
        (.obj [])).result =
      .sent ⟨400, .obj [(utf16 "code", .num (.ofNat 400)),
                        (utf16 "msg", .str (utf16 "症状是必填项"))]⟩ ∧
    (aiDiagnosis integerToString none (fun _ => .response 200 (.ok (utf16 "\x7b\x7d")))
        (.obj [])).fetches = []) ∧
    ((aiAsk integerToString (some (utf16 "sk-1")) (fun _ => .response 200 (.ok (utf16 "\x7b\x7d")))
        (.obj [(utf16 "question", .str [])])).result =
      .sent ⟨400, .obj [(utf16 "code", .num (.ofNat 400)),
                        (utf16 "msg", .str (utf16 "问题是必填项"))]⟩ ∧
    (aiAsk integerToString (some (utf16 "sk-1")) (fun _ => .response 200 (.ok (utf16 "\x7b\x7d")))
        (.obj [(utf16 "question", .str [])])).fetches = []) :=
  ⟨(ai_missing_input integerToString none (fun _ => .response 200 (.ok (utf16 "\x7b\x7d")))
      [] (utf16 "symptoms") (Or.inl rfl)).1 rfl,
   (ai_missing_input integerToString (some (utf16 "sk-1"))
      (fun _ => .response 200 (.ok (utf16 "\x7b\x7d")))
      [(utf16 "question", .str [])] (utf16 "question") (Or.inr (by decide))).2 rfl⟩

/-- C7. With a truthy string input and a configured key, each AI handler
issues exactly one upstream request, whatever the upstream answers: a POST to
the completions URL with `Authorization: Bearer <key>` and the JSON body
`{model: "jiutian-lan", prompt, max_tokens: 200}`; the prompt of `/ai/ask` is
the question unchanged, the prompt of `/ai/diagnosis` is the fixed template
around the symptoms. -/
theorem ai_single_request (numberToString : JsNum → JsString) (key : JsString)
    (fetch : Request → FetchOutcome) (reqBody : JsVal) (s : JsString)
    (hkey : key ≠ []) (hs : s ≠ []) :
    (getProp reqBody (utf16 "symptoms") = .ok (.str s) →
      (aiDiagnosis numberToString (some key) fetch reqBody).fetches =
        [{ url := utf16 "https://jiutian.10086.cn/largemodel/api/v2/completions"
           method := utf16 "POST"
           headers := [(utf16 "Content-Type", utf16 "application/json"),
                       (utf16 "Authorization", utf16 "Bearer " ++ key)]
           body := .obj [(utf16 "model", .str (utf16 "jiutian-lan")),
                         (utf16 "prompt", .str (utf16 "根据症状：\"" ++ s ++
                            utf16 "\"，请给出初步的健康建议和可能的原因。")),
                         (utf16 "max_tokens", .num (.ofNat 200))] }]) ∧
    (getProp reqBody (utf16 "question") = .ok (.str s) →
      (aiAsk numberToString (some key) fetch reqBody).fetches =
        [{ url := utf16 "https://jiutian.10086.cn/largemodel/api/v2/completions"
           method := utf16 "POST"
           headers := [(utf16 "Content-Type", utf16 "application/json"),
                       (utf16 "Authorization", utf16 "Bearer " ++ key)]
           body := .obj [(utf16 "model", .str (utf16 "jiutian-lan")),
                         (utf16 "prompt", .str s),
                         (utf16 "max_tokens", .num (.ofNat 200))] }]) := by
  have hk : keyMissing (some key) = false := by
    cases key with
    | nil => exact absurd rfl hkey
    | cons c cs => rfl
  have ht : truthy (.str s) = true := by
    cases s with
    | nil => exact absurd rfl hs
    | cons c cs => rfl
  constructor
  · intro hbody
    unfold aiDiagnosis
    simp only [hbody, ht, hk, Bool.not_true, Bool.false_eq_true, if_false, toStringJs]
    cases fetch (completionRequest (some key) (.str (diagnosisPrompt s))) with
    | rejected e => rfl
    | response status text =>
      cases text with
      | error e => rfl
      | ok b => cases h : statusOk status <;> simp [h] <;> rfl
  · intro hbody
    unfold aiAsk
    simp only [hbody, ht, hk, Bool.not_true, Bool.false_eq_true, if_false]
    cases fetch (completionRequest (some key) (.str s)) with
    | rejected e => rfl
    | response status text =>
      cases text with
      | error e => rfl
      | ok b => cases h : statusOk status <;> simp [h] <;> rfl

/-- C7, at symptoms `头痛` and key `sk-1` with an upstream that refuses the
connection: one request, with the prompt
`根据症状："头痛"，请给出初步的健康建议和可能的原因。`. -/
theorem ai_single_request_witness :
    (aiDiagnosis integerToString (some (utf16 "sk-1")) (fun _ => .rejected (.other []))
        symptomsHeadache).fetches =
      [{ url := utf16 "https://jiutian.10086.cn/largemodel/api/v2/completions"
         method := utf16 "POST"
         headers := [(utf16 "Content-Type", utf16 "application/json"),
                     (utf16 "Authorization", utf16 "Bearer sk-1")]
         body := .obj [(utf16 "model", .str (utf16 "jiutian-lan")),
                       (utf16 "prompt",
                         .str (utf16 "根据症状：\"头痛\"，请给出初步的健康建议和可能的原因。")),
                       (utf16 "max_tokens", .num (.ofNat 200))] }] :=
  ((ai_single_request integerToString (utf16 "sk-1") (fun _ => .rejected (.other []))
      symptomsHeadache (utf16 "头痛")
      (by decide) (by decide)).1 (by decide)).trans (by decide)

/-- C8, as stated, fails: at symptoms and question `头痛`, the response when
the key is missing and the response when the upstream refuses the connection
carry different `msg` texts. -/
theorem ai_failure_msg_counterexample :
    (aiDiagnosis integerToString none (fun _ => .rejected (.other []))
        symptomsHeadache).result =
      .sent ⟨500, codeMsg 500 (utf16 "服务端未配置智能诊断的AI API KEY")⟩ ∧
    (aiDiagnosis integerToString (some (utf16 "sk-1")) (fun _ => .rejected (.other []))
        symptomsHeadache).result =
      .sent ⟨500, codeMsg 500 (utf16 "智能诊断服务异常")⟩ ∧
    (aiDiagnosis integerToString none (fun _ => .rejected (.other []))
        symptomsHeadache).result ≠
      (aiDiagnosis integerToString (some (utf16 "sk-1")) (fun _ => .rejected (.other []))
        symptomsHeadache).result ∧
    (aiAsk integerToString none (fun _ => .rejected (.other []))
        questionHeadache).result ≠
      (aiAsk integerToString (some (utf16 "sk-1")) (fun _ => .rejected (.other []))
        questionHeadache).result := by
  decide

/-- C8, amended. For each AI call site and every truthy input, the response on
an upstream failure and the response when the key is missing have the same
HTTP status 500 and the same `code` 500, and both bodies are `{code, msg}`;
their `msg` texts differ. -/
theorem ai_failure_same_status_code (numberToString : JsNum → JsString)
    (key noKey : Option JsString) (fetch : Request → FetchOutcome) (reqBody input : JsVal)
    (hkey : keyMissing key = false) (hnoKey : keyMissing noKey = true)
    (hinput : truthy input = true) (hfetch : ∀ req, upstreamFailed (fetch req) = true) :
    (getProp reqBody (utf16 "symptoms") = .ok input →
      ∃ msgUpstream msgKey,
        (aiDiagnosis numberToString key fetch reqBody).result =
          .sent ⟨500, .obj [(utf16 "code", .num (.ofNat 500)),
                            (utf16 "msg", .str msgUpstream)]⟩ ∧
        (aiDiagnosis numberToString noKey fetch reqBody).result =
          .sent ⟨500, .obj [(utf16 "code", .num (.ofNat 500)), (utf16 "msg", .str msgKey)]⟩ ∧
        msgUpstream ≠ msgKey) ∧
    (getProp reqBody (utf16 "question") = .ok input →
      ∃ msgUpstream msgKey,
        (aiAsk numberToString key fetch reqBody).result =
          .sent ⟨500, .obj [(utf16 "code", .num (.ofNat 500)),
                            (utf16 "msg", .str msgUpstream)]⟩ ∧
        (aiAsk numberToString noKey fetch reqBody).result =
          .sent ⟨500, .obj [(utf16 "code", .num (.ofNat 500)), (utf16 "msg", .str msgKey)]⟩ ∧
        msgUpstream ≠ msgKey) := by
  constructor
  · intro hbody
    refine ⟨utf16 "智能诊断服务异常", utf16 "服务端未配置智能诊断的AI API KEY", ?_, ?_, by decide⟩
    · exact aiDiagnosis_result_of_failed numberToString key fetch reqBody input hbody hinput
        hkey hfetch
    · unfold aiDiagnosis
      simp [hbody, hinput, hnoKey, codeMsg]
  · intro hbody
    refine ⟨utf16 "AI服务异常", utf16 "服务端未配置AI问答的AI API KEY", ?_, ?_, by decide⟩
    · exact aiAsk_result_of_failed numberToString key fetch reqBody input hbody hinput
        hkey hfetch
    · unfold aiAsk
      simp [hbody, hinput, hnoKey, codeMsg]

/-- C8 (amended), at symptoms `头痛`, key `sk-1` against no key, and an
upstream answering 503. -/
theorem ai_failure_same_status_code_witness :
    ∃ msgUpstream msgKey,
      (aiDiagnosis integerToString (some (utf16 "sk-1"))
          (fun _ => .response 503 (.ok (utf16 "busy")))
          symptomsHeadache).result =
        .sent ⟨500, .obj [(utf16 "code", .num (.ofNat 500)),
                          (utf16 "msg", .str msgUpstream)]⟩ ∧
      (aiDiagnosis integerToString none
          (fun _ => .response 503 (.ok (utf16 "busy")))
          symptomsHeadache).result =
        .sent ⟨500, .obj [(utf16 "code", .num (.ofNat 500)), (utf16 "msg", .str msgKey)]⟩ ∧
      msgUpstream ≠ msgKey :=
  (ai_failure_same_status_code integerToString (some (utf16 "sk-1")) none
    (fun _ => .response 503 (.ok (utf16 "busy")))
    symptomsHeadache (.str (utf16 "头痛"))
    (by decide) (by decide) (by decide) (fun _ => rfl)).1 (by decide)

/-- C9. With a truthy input and a configured key, any two failing upstream
behaviours (the request is rejected with any error, reading the body fails, or
the status is outside 200 to 299 with any body) give the caller the same
response: the failure response of a call site is a constant that depends on
neither the status, the body nor the error. -/
theorem ai_failure_constant (numberToString : JsNum → JsString) (key : Option JsString)
    (fetch1 fetch2 : Request → FetchOutcome) (reqBody input : JsVal)
    (hkey : keyMissing key = false) (hinput : truthy input = true)
    (hfetch1 : ∀ req, upstreamFailed (fetch1 req) = true)
    (hfetch2 : ∀ req, upstreamFailed (fetch2 req) = true) :
    (getProp reqBody (utf16 "symptoms") = .ok input →
      (aiDiagnosis numberToString key fetch1 reqBody).result =
        (aiDiagnosis numberToString key fetch2 reqBody).result ∧
      (aiDiagnosis numberToString key fetch1 reqBody).result =
        .sent ⟨500, .obj [(utf16 "code", .num (.ofNat 500)),
                          (utf16 "msg", .str (utf16 "智能诊断服务异常"))]⟩) ∧
    (getProp reqBody (utf16 "question") = .ok input →
      (aiAsk numberToString key fetch1 reqBody).result =
        (aiAsk numberToString key fetch2 reqBody).result ∧
      (aiAsk numberToString key fetch1 reqBody).result =
        .sent ⟨500, .obj [(utf16 "code", .num (.ofNat 500)),
                          (utf16 "msg", .str (utf16 "AI服务异常"))]⟩) := by
  constructor
  · intro hbody
    have h1 := aiDiagnosis_result_of_failed numberToString key fetch1 reqBody input hbody
      hinput hkey hfetch1
    have h2 := aiDiagnosis_result_of_failed numberToString key fetch2 reqBody input hbody
      hinput hkey hfetch2
    exact ⟨h1.trans h2.symm, h1⟩
  · intro hbody
    have h1 := aiAsk_result_of_failed numberToString key fetch1 reqBody input hbody
      hinput hkey hfetch1
    have h2 := aiAsk_result_of_failed numberToString key fetch2 reqBody input hbody
      hinput hkey hfetch2
    exact ⟨h1.trans h2.symm, h1⟩

/-- C9, at question `头痛`: an upstream answering 502 with an HTML page and an
upstream whose connection fails give the same response. -/
theorem ai_failure_constant_witness :
    (aiAsk integerToString (some (utf16 "sk-1"))
        (fun _ => .response 502 (.ok (utf16 "<html>Bad Gateway</html>")))
        questionHeadache).result =
      (aiAsk integerToString (some (utf16 "sk-1"))
        (fun _ => .rejected (.other (utf16 "ECONNRESET")))
        questionHeadache).result :=
  ((ai_failure_constant integerToString (some (utf16 "sk-1"))
      (fun _ => .response 502 (.ok (utf16 "<html>Bad Gateway</html>")))
      (fun _ => .rejected (.other (utf16 "ECONNRESET")))
      questionHeadache (.str (utf16 "头痛"))
      (by decide) (by decide) (fun _ => rfl) (fun _ => rfl)).2 (by decide)).1

end Backend
